import Mathlib

/-!
Verification development for the TaskFlow server's CSV-ingestion and
AI-categorization pipeline.

The JavaScript sources (src/services/categorizationService.js, the progress
tracker service, and the upload controller) are shallowly embedded as pure
Lean functions.  Effects are made explicit:

* `Date.now()` values are threaded as `Nat` timestamps; long-running calls
  sample time once at their entry (and once per loop iteration where a loop
  re-reads the clock), from an oracle clock list carried by the `World`.
* Network calls to the generative-text API are replaced by oracle outcome
  lists (`probes` for model tests, `gens` for single-item calls, `batches`
  for chunk calls); each consumed outcome increments a `calls` counter so
  "no network request was made" is expressible.  The structured content of a
  batch response is provided directly by the oracle (the JSON-parsing of the
  raw response text is at the network boundary and is abstracted to its
  result: a list of (taskNumber, category) pairs, or a failure).
* The md5 content digest is modeled by the normalized content itself
  (`generateCacheKey` returns the lower-cased, trimmed text); md5 is a
  deterministic function of that text and is assumed collision-free.
* JavaScript `Map`s are modeled as insertion-ordered association lists.
* Thrown exceptions become `Except` values.

String normalization (`toLowerCase`, `trim`, `split(/\s+/)`) is modeled
character-by-character on `String.data` so that everything evaluates inside
the kernel (ASCII case-folding, the common case for this data).
-/

namespace TaskFlow

set_option maxRecDepth 200000

/-- Whitespace test used by the models of JS `trim` and `split(/\s+/)`. -/
def isWS (c : Char) : Bool :=
  c = ' ' || c = '\t' || c = '\n' || c = '\r'

/-- ASCII case-folding of one character, the model of what JS
`toLowerCase` does on the data appearing in this system. -/
def lowerChar (c : Char) : Char :=
  match c with
  | 'A' => 'a' | 'B' => 'b' | 'C' => 'c' | 'D' => 'd' | 'E' => 'e'
  | 'F' => 'f' | 'G' => 'g' | 'H' => 'h' | 'I' => 'i' | 'J' => 'j'
  | 'K' => 'k' | 'L' => 'l' | 'M' => 'm' | 'N' => 'n' | 'O' => 'o'
  | 'P' => 'p' | 'Q' => 'q' | 'R' => 'r' | 'S' => 's' | 'T' => 't'
  | 'U' => 'u' | 'V' => 'v' | 'W' => 'w' | 'X' => 'x' | 'Y' => 'y'
  | 'Z' => 'z'
  | c => c

/-- Model of JS `String.prototype.toLowerCase` (ASCII fragment). -/
def toLowerStr (s : String) : String :=
  ⟨s.data.map lowerChar⟩

/-- Drop leading whitespace from a character list. -/
def ltrim (l : List Char) : List Char := l.dropWhile isWS

/-- Drop trailing whitespace from a character list. -/
def rtrim (l : List Char) : List Char := (ltrim l.reverse).reverse

/-- Model of JS `String.prototype.trim` on character lists: leading then
trailing whitespace removed. -/
def trimList (l : List Char) : List Char := rtrim (ltrim l)

/-- Model of JS `String.prototype.trim`. -/
def trimStr (s : String) : String := ⟨trimList s.data⟩

/-- Count of maximal non-whitespace runs in a character list; the `inWord`
flag records whether the previous character was part of a word. -/
def countRuns : List Char → Bool → Nat
  | [], _ => 0
  | c :: cs, inWord =>
      if isWS c then countRuns cs false
      else (if inWord then 0 else 1) + countRuns cs true

/-- Model of `text.trim().split(/\s+/).length` from the source's
`estimateTokens`: JS splitting of the empty string yields one (empty)
field, otherwise the number of whitespace-separated words. -/
def wordCount (s : String) : Nat :=
  if trimStr s = "" then 1 else countRuns (trimStr s).data false

/-- Model of JS `String.prototype.includes`: substring containment. -/
def containsSub (haystack needle : String) : Bool :=
  decide (needle.data <:+: haystack.data)

/-! Lemmas about the normalization functions, used to relate the cache key
computed at write time with the one computed at lookup time. -/

theorem isWS_lowerChar (c : Char) : isWS (lowerChar c) = isWS c := by
  unfold lowerChar
  split <;> rfl

theorem ltrim_map_lowerChar (l : List Char) :
    ltrim (l.map lowerChar) = (ltrim l).map lowerChar := by
  induction l with
  | nil => rfl
  | cons c cs ih =>
      simp only [ltrim, List.map_cons, List.dropWhile_cons, isWS_lowerChar]
      cases h : isWS c with
      | true => simpa [h] using ih
      | false => simp [h]

theorem rtrim_map_lowerChar (l : List Char) :
    rtrim (l.map lowerChar) = (rtrim l).map lowerChar := by
  simp only [rtrim, ← List.map_reverse, ltrim_map_lowerChar]

theorem trimList_map_lowerChar (l : List Char) :
    trimList (l.map lowerChar) = (trimList l).map lowerChar := by
  simp only [trimList, ltrim_map_lowerChar, rtrim_map_lowerChar]

/-- Case-folding and trimming commute. -/
theorem trimStr_toLowerStr (s : String) :
    trimStr (toLowerStr s) = toLowerStr (trimStr s) := by
  simp only [trimStr, toLowerStr, trimList_map_lowerChar]

theorem ltrim_ltrim (l : List Char) : ltrim (ltrim l) = ltrim l := by
  induction l with
  | nil => rfl
  | cons c cs ih =>
      by_cases h : isWS c
      · simpa [ltrim, List.dropWhile_cons, h] using ih
      · simp [ltrim, List.dropWhile_cons, h]

theorem ltrim_append_singleton {a : Char} (h : isWS a = false) (l : List Char) :
    ltrim (l ++ [a]) = ltrim l ++ [a] := by
  induction l with
  | nil => simp [ltrim, List.dropWhile_cons, h]
  | cons c cs ih =>
      by_cases hc : isWS c
      · simpa [ltrim, List.dropWhile_cons, hc] using ih
      · simp [ltrim, List.dropWhile_cons, hc]

theorem rtrim_cons {a : Char} (h : isWS a = false) (t : List Char) :
    rtrim (a :: t) = a :: rtrim t := by
  simp [rtrim, ltrim_append_singleton h, List.reverse_cons]

theorem rtrim_rtrim (l : List Char) : rtrim (rtrim l) = rtrim l := by
  simp [rtrim, List.reverse_reverse, ltrim_ltrim]

theorem ltrim_length_le (l : List Char) : (ltrim l).length ≤ l.length := by
  induction l with
  | nil => simp [ltrim]
  | cons c cs ih =>
      by_cases hc : isWS c
      · simp only [ltrim, List.dropWhile_cons, hc, if_true]
        exact Nat.le_trans ih (Nat.le_succ _)
      · simp [ltrim, List.dropWhile_cons, hc]

theorem ltrim_rtrim_of_ltrim_eq {l : List Char} (h : ltrim l = l) :
    ltrim (rtrim l) = rtrim l := by
  cases l with
  | nil => rfl
  | cons a t =>
      have ha : isWS a = false := by
        cases hh : isWS a
        · rfl
        · exfalso
          have h1 : ltrim (a :: t) = ltrim t := by
            simp [ltrim, List.dropWhile_cons, hh]
          have h2 : a :: t = ltrim t := by rw [← h, h1]
          have h3 : (a :: t).length ≤ t.length := by
            rw [h2]; exact ltrim_length_le t
          simp at h3
      rw [rtrim_cons ha]
      simp [ltrim, List.dropWhile_cons, ha]

theorem ltrim_trimList (l : List Char) : ltrim (trimList l) = trimList l := by
  simpa [trimList] using ltrim_rtrim_of_ltrim_eq (ltrim_ltrim l)

/-- Trimming is idempotent. -/
theorem trimList_trimList (l : List Char) :
    trimList (trimList l) = trimList l := by
  show rtrim (ltrim (trimList l)) = trimList l
  rw [ltrim_trimList]
  simp [trimList, rtrim_rtrim]

/-- Trimming is idempotent (string version). -/
theorem trimStr_trimStr (s : String) : trimStr (trimStr s) = trimStr s := by
  simp only [trimStr, trimList_trimList]

/-! ## Constants of src/services/categorizationService.js -/

/-- Category vocabulary, in the source's order. -/
def CATEGORIES : List String :=
  ["Support", "Sales", "Technical", "Billing", "Urgent", "General"]

/-- Cache entry time-to-live: 24 hours in milliseconds. -/
def CACHE_TTL : Nat := 24 * 60 * 60 * 1000

/-- Free-tier request budget per window. -/
def MAX_REQUESTS_PER_MINUTE : Nat := 5

/-- Re-check the discovered model after this many milliseconds. -/
def MODEL_DISCOVERY_INTERVAL : Nat := 5 * 60 * 1000

/-- Maximum discovery sessions before discovery is skipped. -/
def MAX_MODEL_DISCOVERY_ATTEMPTS : Nat := 3

/-- Candidate model identifiers, in order of preference. -/
def MODEL_NAMES : List String :=
  ["gemini-2.5-flash", "gemini-1.5-flash", "gemini-1.5-pro", "gemini-pro"]

/-! ## Classification cache -/

/-- One cache value: assigned label, optional confidence (always absent in
this system), insertion timestamp. -/
structure CacheEntry where
  category : String
  confidence : Option Nat
  timestamp : Nat
deriving Repr, DecidableEq

/-- The in-memory categorization cache: a JS `Map` modeled as an
insertion-ordered association list keyed by the content digest. -/
abbrev Cache := List (String × CacheEntry)

/-- Model of `categorizationCache.get`. -/
def cacheGet (c : Cache) (k : String) : Option CacheEntry :=
  (c.find? (fun p => p.1 = k)).map (fun p => p.2)

/-- Model of `categorizationCache.set`: overwrite in place if the key is
present (JS `Map` keeps the original insertion position), else append. -/
def cacheSet (c : Cache) (k : String) (v : CacheEntry) : Cache :=
  if (c.find? (fun p => p.1 = k)).isSome then
    c.map (fun p => if p.1 = k then (k, v) else p)
  else c ++ [(k, v)]

/-- Model of `generateCacheKey`: `null` for the empty string (falsy in JS),
otherwise the md5 digest of the lower-cased, trimmed text — the digest is
modeled by the normalized text itself. -/
def generateCacheKey (notes : String) : Option String :=
  if notes = "" then none else some (trimStr (toLowerStr notes))

/-- Model of `isCacheValid`: present and younger than the TTL. -/
def isCacheValid (cached : Option CacheEntry) (now : Nat) : Bool :=
  match cached with
  | none => false
  | some item => now - item.timestamp < CACHE_TTL

/-- The eviction pass from `categorizeTask`: sort all entries by insertion
timestamp and delete the oldest 200. -/
def evictOldest (c : Cache) : Cache :=
  let sorted := c.mergeSort (fun a b => a.2.timestamp ≤ b.2.timestamp)
  let victims := (sorted.take 200).map (fun p => p.1)
  c.filter (fun p => !(victims.contains p.1))

/-- The cache write performed on the single-item success path
(categorizeTask): insert, then evict the oldest 200 entries whenever the
store has grown past 1000. -/
def cacheWriteSingle (c : Cache) (k : String) (v : CacheEntry) : Cache :=
  let c' := cacheSet c k v
  if c'.length > 1000 then evictOldest c' else c'

/-- The cache write performed per item after a successful chunk batch call
(categorizeChunkBatch): a plain insert, with no eviction pass. -/
def cacheWriteBatch (c : Cache) (k : String) (v : CacheEntry) : Cache :=
  cacheSet c k v

/-! ## Rate limiter -/

/-- The process-wide rate-limit window: request counter and reset time. -/
structure RateState where
  requestCount : Nat
  rateLimitResetTime : Nat
deriving Repr, DecidableEq

/-- Model of `checkRateLimit`: lazily reset the window when the boundary
has passed, then report whether the counter is under budget. -/
def checkRateLimit (now : Nat) (rl : RateState) : Bool × RateState :=
  let rl' := if now > rl.rateLimitResetTime
    then { requestCount := 0, rateLimitResetTime := now + 60000 }
    else rl
  (rl'.requestCount < MAX_REQUESTS_PER_MINUTE, rl')

/-- Model of `incrementRateLimit`. -/
def incrementRateLimit (rl : RateState) : RateState :=
  { rl with requestCount := rl.requestCount + 1 }

/-! ## Health statistics and the shared service state -/

/-- Mirror of the `healthStats` object. -/
structure HealthStats where
  totalRequests : Nat
  successfulRequests : Nat
  failedRequests : Nat
  cacheHits : Nat
  lastSuccessTime : Option Nat
  lastFailureTime : Option Nat
  consecutiveFailures : Nat
  isHealthy : Bool
deriving Repr, DecidableEq

/-- The module-level mutable state of categorizationService.js. -/
structure SvcState where
  cache : Cache
  rate : RateState
  workingModel : Option String
  modelDiscoveryAttempts : Nat
  lastModelDiscoveryTime : Nat
  health : HealthStats
deriving Repr, DecidableEq

/-! ## Oracles for the external API and the clock -/

/-- Outcome of one `testModel` probe: the model answered, the model failed
for a non-rate-limit reason (404 / timeout / malformed), or the probe threw
a rate-limit (429) error. -/
inductive ProbeOutcome
  | ok
  | bad
  | rate
deriving Repr, DecidableEq

/-- Outcome of one single-item `generateContent` attempt. -/
inductive GenOutcome
  | text (s : String)
  | rate
  | notFound
  | other
deriving Repr, DecidableEq

/-- Outcome of one chunk `generateContent` call, abstracted past the JSON
parse: the validated (taskNumber, category) entries the parser extracts, or
a rate-limit failure, or any other failure (timeout, malformed, 404). -/
inductive BatchOutcome
  | entries (l : List (Nat × String))
  | rate
  | otherFail
deriving Repr, DecidableEq

/-- The whole external world threaded through the embedding: the shared
service state, the oracle clock and outcome streams, and a counter of API
calls actually issued. -/
structure World where
  svc : SvcState
  clock : List Nat
  lastNow : Nat
  probes : List ProbeOutcome
  gens : List GenOutcome
  batches : List BatchOutcome
  calls : Nat
deriving Repr, DecidableEq

/-- Sample `Date.now()`: pop the next oracle time (repeating the last one
once the stream is exhausted). -/
def tick (w : World) : Nat × World :=
  match w.clock with
  | [] => (w.lastNow, w)
  | t :: ts => (t, { w with clock := ts, lastNow := t })

/-- Consume the next probe outcome (an exhausted stream reads as a failed
probe) and count the API call. -/
def popProbe (w : World) : ProbeOutcome × World :=
  (w.probes.headD .bad,
   { w with probes := w.probes.tail, calls := w.calls + 1 })

/-- Consume the next single-item outcome and count the API call. -/
def popGen (w : World) : GenOutcome × World :=
  (w.gens.headD .other,
   { w with gens := w.gens.tail, calls := w.calls + 1 })

/-- Consume the next chunk outcome and count the API call. -/
def popBatch (w : World) : BatchOutcome × World :=
  (w.batches.headD .otherFail,
   { w with batches := w.batches.tail, calls := w.calls + 1 })

/-! ## Model discovery (discoverWorkingModel) -/

/-- The candidate scan inside `discoverWorkingModel`.  For each candidate:
consult the rate limiter (stopping the scan and returning the cached model
if the budget is gone), probe the model, and
* on success cache the candidate, reset the discovery-attempt and failure
  streaks, mark healthy, and return it at once;
* on a rate-limit error mark the window exhausted and return the cached
  model without touching the candidate's standing;
* on any other failure move on to the next candidate.
Exhausting the list clears the cached model, marks the manager unhealthy
and increments the consecutive-failure streak. -/
def scanModels : List String → World → Option String × World
  | [], w =>
      (none,
       { w with svc := { w.svc with
           workingModel := none,
           health := { w.svc.health with
             isHealthy := false,
             consecutiveFailures := w.svc.health.consecutiveFailures + 1 } } })
  | m :: rest, w0 =>
      let now := (tick w0).1
      let w1 := (tick w0).2
      let check := checkRateLimit now w1.svc.rate
      let w2 := { w1 with svc := { w1.svc with rate := check.2 } }
      if !check.1 then (w2.svc.workingModel, w2)
      else
        let w3 := (popProbe w2).2
        match (popProbe w2).1 with
        | .ok =>
            let w4 := { w3 with svc := { w3.svc with
              rate := incrementRateLimit w3.svc.rate } }
            (some m,
             { w4 with svc := { w4.svc with
                 workingModel := some m,
                 modelDiscoveryAttempts := 0,
                 health := { w4.svc.health with
                   isHealthy := true, consecutiveFailures := 0 } } })
        | .bad =>
            let w4 := { w3 with svc := { w3.svc with
              rate := incrementRateLimit w3.svc.rate } }
            scanModels rest w4
        | .rate =>
            (w3.svc.workingModel,
             { w3 with svc := { w3.svc with
                 rate := { requestCount := MAX_REQUESTS_PER_MINUTE,
                           rateLimitResetTime := now + 60000 } } })

/-- Model of `discoverWorkingModel`.  `now` is the time sampled at entry;
probe outcomes and the per-probe clock come from the world's oracles. -/
def discoverWorkingModel (forceRefresh : Bool) (now : Nat) (w : World) :
    Option String × World :=
  if !forceRefresh ∧ w.svc.workingModel.isSome ∧
      now - w.svc.lastModelDiscoveryTime < MODEL_DISCOVERY_INTERVAL then
    (w.svc.workingModel, w)
  else if w.svc.modelDiscoveryAttempts ≥ MAX_MODEL_DISCOVERY_ATTEMPTS ∧
      !forceRefresh then
    (w.svc.workingModel, w)
  else
    let check :=
      if forceRefresh then (true, w.svc.rate) else checkRateLimit now w.svc.rate
    let w1 := { w with svc := { w.svc with rate := check.2 } }
    if !check.1 then (w1.svc.workingModel, w1)
    else
      let w2 := { w1 with svc := { w1.svc with
        modelDiscoveryAttempts := w1.svc.modelDiscoveryAttempts + 1,
        lastModelDiscoveryTime := now } }
      scanModels MODEL_NAMES w2

/-- Model of `getWorkingModel`: the cached identifier if set, otherwise an
un-forced discovery (which samples the clock itself). -/
def getWorkingModel (w : World) : Option String × World :=
  match w.svc.workingModel with
  | some m => (some m, w)
  | none => discoverWorkingModel false (tick w).1 (tick w).2

/-! ## Single-item classifier (categorizeTask) -/

/-- Classification result shape `{category, source, confidence}`. -/
structure CatResult where
  category : String
  source : String
  confidence : Option Nat
deriving Repr, DecidableEq

deriving instance DecidableEq for Except

/-- The graceful-degradation result. -/
def defaultResult : CatResult :=
  { category := "General", source := "default", confidence := none }

/-- Health-stats bookkeeping: one more request observed. -/
def bumpTotalRequests (w : World) : World :=
  { w with svc := { w.svc with health := { w.svc.health with
      totalRequests := w.svc.health.totalRequests + 1 } } }

/-- Health-stats bookkeeping: a cache hit. -/
def bumpCacheHits (w : World) : World :=
  { w with svc := { w.svc with health := { w.svc.health with
      cacheHits := w.svc.health.cacheHits + 1 } } }

/-- Health-stats bookkeeping: `failedRequests++` and `lastFailureTime`. -/
def recordFailure (now : Nat) (w : World) : World :=
  { w with svc := { w.svc with health := { w.svc.health with
      failedRequests := w.svc.health.failedRequests + 1,
      lastFailureTime := some now } } }

/-- Health-stats bookkeeping: `consecutiveFailures++`. -/
def bumpConsecutiveFailures (w : World) : World :=
  { w with svc := { w.svc with health := { w.svc.health with
      consecutiveFailures := w.svc.health.consecutiveFailures + 1 } } }

/-- Health-stats bookkeeping for a successful classification: success
counters updated, failure streak cleared, marked healthy. -/
def recordSuccess (now : Nat) (w : World) : World :=
  { w with svc := { w.svc with health := { w.svc.health with
      successfulRequests := w.svc.health.successfulRequests + 1,
      lastSuccessTime := some now,
      consecutiveFailures := 0,
      isHealthy := true } } }

/-- Normalization of a raw single-item response against the fixed label
set: trim, case-fold, and return the first canonical label contained as a
substring, defaulting to General.  (The source's trailing
`CATEGORIES.includes` re-check is dead code: the result is always drawn
from `CATEGORIES` or is already General.) -/
def normalizeResponseCategory (s : String) : String :=
  let text := trimStr s
  let normalizedText := trimStr (toLowerStr text)
  (CATEGORIES.find? (fun cat => containsSub normalizedText (toLowerStr cat))).getD
    "General"

/-- How the retry loop of `categorizeTask` ends. -/
inductive AttemptExit
  | success (r : CatResult)
  | rateHit
  | failed
deriving Repr, DecidableEq

/-- The retry loop of `categorizeTask` (attempts 0..2, i.e. `fuel` counts
the attempts still available, starting at 3; `fuel ≥ 2` is the source's
`attempt < maxRetries`).  On a successful response the result is
normalized, cached (with the eviction pass) under `key`, and health is
updated; a rate-limit outcome aborts at once; a "model not found" outcome
clears the cached model and forces a re-discovery before the next attempt;
other errors retry after a backoff until the attempts are exhausted. -/
def genAttemptLoop (key : Option String) (now : Nat) :
    Nat → World → AttemptExit × World
  | 0, w => (.failed, w)
  | fuel + 1, w0 =>
      let w1 := (popGen w0).2
      match (popGen w0).1 with
      | .text s =>
          let category := normalizeResponseCategory s
          let entry : CacheEntry :=
            { category := category, confidence := none, timestamp := now }
          let w2 := match key with
            | some k =>
                { w1 with svc := { w1.svc with
                    cache := cacheWriteSingle w1.svc.cache k entry } }
            | none => w1
          (.success { category := category, source := "ai", confidence := none },
           recordSuccess now w2)
      | .rate => (.rateHit, w1)
      | .notFound =>
          let w2 := { w1 with svc := { w1.svc with workingModel := none } }
          let nowD := (tick w2).1
          let w3 := (tick w2).2
          let w4 := (discoverWorkingModel true nowD w3).2
          -- the source retries both when the forced re-discovery found a
          -- model and when attempts remain (the two continues differ only
          -- in the skipped backoff delay, absorbed by the oracle clock)
          if fuel ≥ 1 then genAttemptLoop key now fuel w4
          else (.failed, w4)
      | .other =>
          if fuel ≥ 1 then genAttemptLoop key now fuel w1
          else (.failed, w1)

/-- The try-block of `categorizeTask` once the cache, feature flag and
rate budget have been consulted: resolve a working model (none: degrade
with failure bookkeeping), spend one budget slot, run the retry loop, and
translate its exit — a rate-limit exit re-throws after the failure
bookkeeping, an exhausted-retries exit degrades to the default (forcing a
re-discovery at five consecutive failures). -/
def categorizeTaskCall (key : Option String) (now : Nat) (w1 : World) :
    Except Unit CatResult × World :=
  let gm := getWorkingModel w1
  let w2 := gm.2
  match gm.1 with
  | none =>
      (.ok defaultResult,
       bumpConsecutiveFailures (recordFailure now w2))
  | some _ =>
      let w3 := { w2 with svc := { w2.svc with
        rate := incrementRateLimit w2.svc.rate } }
      let att := genAttemptLoop key now 3 w3
      let w4 := att.2
      match att.1 with
      | .success r => (.ok r, w4)
      | .rateHit =>
          (.error (), bumpConsecutiveFailures (recordFailure now w4))
      | .failed =>
          let w5 := bumpConsecutiveFailures (recordFailure now w4)
          if w5.svc.health.consecutiveFailures ≥ 5 then
            let w6 := { w5 with svc := { w5.svc with
              workingModel := none,
              health := { w5.svc.health with isHealthy := false } } }
            (.ok defaultResult,
             (discoverWorkingModel true (tick w6).1 (tick w6).2).2)
          else (.ok defaultResult, w5)

/-- Model of `categorizeTask`.  `now` is the time sampled at this call's
entry.  The returned `Except` is `.error ()` exactly when the source
re-throws its distinguishable rate-limit error; every other failure
degrades to the default result. -/
def categorizeTask (taskNotes : String) (useCache : Bool) (aiEnabled : Bool)
    (now : Nat) (w : World) : Except Unit CatResult × World :=
  let w := bumpTotalRequests w
  if trimStr taskNotes = "" then (.ok defaultResult, w)
  else
    let trimmedNotes := trimStr taskNotes
    let key := generateCacheKey trimmedNotes
    let cachedHit : Bool :=
      useCache && (match key with
        | some k => isCacheValid (cacheGet w.svc.cache k) now
        | none => false)
    if cachedHit then
      match key with
      | some k =>
          let w := bumpCacheHits w
          match cacheGet w.svc.cache k with
          | some item =>
              (.ok { category := item.category, source := "ai",
                     confidence := item.confidence }, w)
          | none => (.ok defaultResult, w)
      | none => (.ok defaultResult, w)
    else
      if !aiEnabled then (.ok defaultResult, w)
      else
        let check := checkRateLimit now w.svc.rate
        let w1 := { w with svc := { w.svc with rate := check.2 } }
        if !check.1 then (.ok defaultResult, recordFailure now w1)
        else categorizeTaskCall key now w1

/-! ## Batch chunking and batch classification -/

/-- A parsed CSV row as the ingestion pipeline builds it (fields may be
missing when the row lacked the column). -/
structure Task where
  firstName : Option String
  phone : Option String
  notes : Option String
deriving Repr, DecidableEq

/-- A task tagged with its original position (`{index, task}`). -/
structure TaggedTask where
  index : Nat
  task : Task
deriving Repr, DecidableEq

/-- A result tagged with the original position it belongs to. -/
structure TaggedResult where
  index : Nat
  result : CatResult
deriving Repr, DecidableEq

/-- Model of `separateCachedTasks`: walk the task list, resolving every
valid cache hit to an indexed result and collecting the rest as indexed
uncached tasks.  (The per-hit `healthStats.cacheHits` bumps are applied in
one batch by the caller, `categorizeTasksBatch`.) -/
def sepAux (now : Nat) (cache : Cache) : List Task → Nat →
    List TaggedResult × List TaggedTask
  | [], _ => ([], [])
  | t :: ts, i =>
      let rest := sepAux now cache ts (i + 1)
      let notes := t.notes.getD ""
      match generateCacheKey notes with
      | some k =>
          match cacheGet cache k with
          | some item =>
              if isCacheValid (some item) now then
                ({ index := i,
                   result := { category := item.category, source := "ai",
                               confidence := item.confidence } } :: rest.1,
                 rest.2)
              else (rest.1, { index := i, task := t } :: rest.2)
          | none => (rest.1, { index := i, task := t } :: rest.2)
      | none => (rest.1, { index := i, task := t } :: rest.2)

/-- Model of `separateCachedTasks` at position zero. -/
def separateCachedTasks (now : Nat) (cache : Cache) (tasks : List Task) :
    List TaggedResult × List TaggedTask :=
  sepAux now cache tasks 0

/-- Model of `estimateTokens`: zero for the empty string, otherwise
`ceil(wordCount / 0.75)`. -/
def estimateTokens (text : String) : Nat :=
  if text = "" then 0 else (4 * wordCount text + 2) / 3

/-- Chunking configuration with the source's defaults. -/
structure ChunkConfig where
  maxChunkSize : Nat := 15
  maxTokens : Nat := 2000
  minChunkSize : Nat := 5
deriving Repr, DecidableEq

/-- Greedy accumulation loop of `createOptimalChunks`: close the running
chunk when the next item would exceed the size or token budget, but only
if the running chunk already has `minChunkSize` items — otherwise force-add
the item.  A fixed 200-token base-prompt overhead and a 10-token per-item
numbering overhead enter the token check. -/
def chunkLoop (cfg : ChunkConfig) :
    List TaggedTask → List TaggedTask → Nat → List (List TaggedTask)
  | [], currentChunk, _ =>
      if currentChunk.isEmpty then [] else [currentChunk]
  | item :: rest, currentChunk, currentTokens =>
      let taskNotes := item.task.notes.getD ""
      let totalTaskTokens := estimateTokens taskNotes + 10
      let wouldExceedSize := currentChunk.length ≥ cfg.maxChunkSize
      let wouldExceedTokens :=
        currentTokens + totalTaskTokens + 200 > cfg.maxTokens
      if wouldExceedSize || wouldExceedTokens then
        if currentChunk.length ≥ cfg.minChunkSize then
          currentChunk :: chunkLoop cfg rest [item] totalTaskTokens
        else
          chunkLoop cfg rest (currentChunk ++ [item])
            (currentTokens + totalTaskTokens)
      else
        chunkLoop cfg rest (currentChunk ++ [item])
          (currentTokens + totalTaskTokens)

/-- Model of `createOptimalChunks`. -/
def createOptimalChunks (tasks : List TaggedTask) (cfg : ChunkConfig) :
    List (List TaggedTask) :=
  chunkLoop cfg tasks [] 0

/-- Model of `validateCategory`: exact (case-insensitive, trimmed) match
first, then substring containment in either direction, else General. -/
def validateCategory (category : String) : String :=
  if category = "" then "General"
  else
    let normalizedLower := toLowerStr (trimStr category)
    match CATEGORIES.find? (fun cat => normalizedLower = toLowerStr cat) with
    | some cat => cat
    | none =>
        match CATEGORIES.find? (fun cat =>
            containsSub normalizedLower (toLowerStr cat) ||
            containsSub (toLowerStr cat) normalizedLower) with
        | some cat => cat
        | none => "General"

/-- Lookup in the `taskNumber -> validated category` map built from the
parsed entries; a JS `Map.set` lets the last write win, and a missing
ordinal falls back to General. -/
def parsedLookup (entries : List (Nat × String)) (taskNumber : Nat) : String :=
  match entries.reverse.find? (fun p => p.1 = taskNumber) with
  | some p => validateCategory p.2
  | none => "General"

/-- Distinguishable errors thrown by `categorizeChunkBatch`: those the
caller's rate-limit pattern matches, and everything else. -/
inductive ChunkErr
  | rateLike
  | otherErr
deriving Repr, DecidableEq

/-- The per-item loop of a successfully parsed chunk: each item (taskNumber
`i+1`) receives its parsed category or General, is cached individually
under its content fingerprint (plain insert — no eviction pass), and is
emitted with source `ai`. -/
def chunkBatchLoop (now : Nat) (entries : List (Nat × String)) :
    List TaggedTask → Nat → Cache → List TaggedResult × Cache
  | [], _, cache => ([], cache)
  | item :: rest, i, cache =>
      let category := parsedLookup entries (i + 1)
      let notes := item.task.notes.getD ""
      let cache1 := match generateCacheKey notes with
        | some k =>
            cacheWriteBatch cache k
              { category := category, confidence := none, timestamp := now }
        | none => cache
      let rec1 := chunkBatchLoop now entries rest (i + 1) cache1
      ({ index := item.index,
         result := { category := category, source := "ai",
                     confidence := none } } :: rec1.1, rec1.2)

/-- Model of `categorizeChunkBatch`.  Throws (`Except.error`) rather than
defaulting: no working model and an unparseable response are ordinary
errors; an exhausted budget or a 429 from the API are rate-like. -/
def categorizeChunkBatch (chunk : List TaggedTask) (now : Nat) (w : World) :
    Except ChunkErr (List TaggedResult) × World :=
  if chunk.isEmpty then (.ok [], w)
  else
    let gm := getWorkingModel w
    let w1 := gm.2
    match gm.1 with
    | none => (.error .otherErr, w1)
    | some _ =>
        let check := checkRateLimit now w1.svc.rate
        let w2 := { w1 with svc := { w1.svc with rate := check.2 } }
        if !check.1 then (.error .rateLike, w2)
        else
          let w3 := { w2 with svc := { w2.svc with
            rate := incrementRateLimit w2.svc.rate } }
          let w4 := (popBatch w3).2
          match (popBatch w3).1 with
          | .rate => (.error .rateLike, w4)
          | .otherFail => (.error .otherErr, w4)
          | .entries l =>
              if l.isEmpty then (.error .otherErr, w4)
              else
                let out := chunkBatchLoop now l chunk 0 w4.svc.cache
                let w5 := { w4 with svc := { w4.svc with
                  cache := out.2,
                  health := { w4.svc.health with
                    successfulRequests :=
                      w4.svc.health.successfulRequests + chunk.length,
                    lastSuccessTime := some now,
                    consecutiveFailures := 0,
                    isHealthy := true } } }
                (.ok out.1, w5)

/-- One progress-callback payload, with exactly the fields the source
passes at each call site (absent fields stay `none`). -/
structure ProgressMsg where
  step : String
  currentStep : String
  processedTasks : Option Nat
  totalTasks : Option Nat
  categorizedTasks : Option Nat
  defaultTasks : Option Nat
  rateLimitHit : Option Bool
deriving Repr, DecidableEq

/-- Model of `categorizeChunkIndividually`: classify the chunk's items one
at a time, reporting chunk-relative progress after each successful item; a
thrown (rate-limit) error from `categorizeTask` degrades that item to the
default result without a progress report. -/
def indivLoop (aiEnabled : Bool) (total : Nat) :
    List TaggedTask → Nat → World →
    List TaggedResult × World × List ProgressMsg
  | [], _, w => ([], w, [])
  | item :: rest, done, w0 =>
      let now := (tick w0).1
      let w1 := (tick w0).2
      let run := categorizeTask (item.task.notes.getD "") true aiEnabled now w1
      let w2 := run.2
      match run.1 with
      | .ok r =>
          let msg : ProgressMsg :=
            { step := "categorizing",
              currentStep := "Processing task individually",
              processedTasks := some (done + 1),
              totalTasks := some total,
              categorizedTasks := none, defaultTasks := none,
              rateLimitHit := none }
          let rec1 := indivLoop aiEnabled total rest (done + 1) w2
          ({ index := item.index, result := r } :: rec1.1, rec1.2.1,
           msg :: rec1.2.2)
      | .error _ =>
          let rec1 := indivLoop aiEnabled total rest (done + 1) w2
          ({ index := item.index, result := defaultResult } :: rec1.1,
           rec1.2.1, rec1.2.2)

/-- Model of `categorizeChunkIndividually` at its entry point. -/
def categorizeChunkIndividually (aiEnabled : Bool) (chunk : List TaggedTask)
    (w : World) : List TaggedResult × World × List ProgressMsg :=
  indivLoop aiEnabled chunk.length chunk 0 w

/-- Combined results in original input order with the ai/default tallies. -/
structure Combined where
  results : List CatResult
  categorizedCount : Nat
  defaultCount : Nat
deriving Repr, DecidableEq

/-- The `index -> result` map of `combineResults`: cached results inserted
first, then batch results (a later insert for the same index wins). -/
def resultMapGet (cachedResults batchResults : List TaggedResult) (i : Nat) :
    Option CatResult :=
  ((cachedResults ++ batchResults).reverse.find? (fun r => r.index = i)).map
    (fun r => r.result)

/-- Model of `combineResults`: rebuild position `i` from the map (General
default when no result was recorded for `i`) and tally sources. -/
def combineResults (cachedResults batchResults : List TaggedResult)
    (originalTasks : List Task) : Combined :=
  let results := (List.range originalTasks.length).map (fun i =>
    (resultMapGet cachedResults batchResults i).getD defaultResult)
  { results := results,
    categorizedCount := results.countP (fun r => r.source == "ai"),
    defaultCount := results.countP (fun r => !(r.source == "ai")) }

/-- The sequential chunk loop of `categorizeTasksBatch`.  `cachedCount` is
the number of cache-resolved tasks (for progress counts), `acc` the batch
results accumulated so far.  Before each chunk the rate budget is checked:
exhausted means the current and all remaining chunks default and the loop
stops with the rate-limit flag set; a rate-like chunk failure does the
same; any other chunk failure falls back to per-item classification. -/
def processChunks (aiEnabled : Bool) (cachedCount totalTasks : Nat) :
    List (List TaggedTask) → List TaggedResult → World →
    List TaggedResult × Bool × World × List ProgressMsg
  | [], acc, w => (acc, false, w, [])
  | chunk :: rest, acc, w0 =>
      let now := (tick w0).1
      let w1 := (tick w0).2
      let check := checkRateLimit now w1.svc.rate
      let w2 := { w1 with svc := { w1.svc with rate := check.2 } }
      if !check.1 then
        let rateMsg : ProgressMsg :=
          { step := "categorizing",
            currentStep := "Rate limit reached. Setting remaining tasks to default...",
            processedTasks := some (cachedCount + acc.length),
            totalTasks := some totalTasks,
            categorizedTasks := none, defaultTasks := none,
            rateLimitHit := some true }
        let defaults := ((chunk :: rest).flatten).map (fun item =>
          { index := item.index, result := defaultResult })
        (acc ++ defaults, true, w2, [rateMsg])
      else
        let startMsg : ProgressMsg :=
          { step := "categorizing",
            currentStep := "Processing chunk",
            processedTasks := some (cachedCount + acc.length),
            totalTasks := some totalTasks,
            categorizedTasks := some (cachedCount +
              acc.countP (fun r => r.result.source == "ai")),
            defaultTasks := none, rateLimitHit := none }
        let res := categorizeChunkBatch chunk now w2
        let w3 := res.2
        match res.1 with
        | .ok chunkResults =>
            let acc' := acc ++ chunkResults
            let doneMsg : ProgressMsg :=
              { step := "categorizing",
                currentStep := "Chunk complete",
                processedTasks := some (cachedCount + acc'.length),
                totalTasks := some totalTasks,
                categorizedTasks := some (cachedCount +
                  acc'.countP (fun r => r.result.source == "ai")),
                defaultTasks := none, rateLimitHit := none }
            let rec1 := processChunks aiEnabled cachedCount totalTasks rest acc' w3
            (rec1.1, rec1.2.1, rec1.2.2.1, startMsg :: doneMsg :: rec1.2.2.2)
        | .error .rateLike =>
            let defaults := ((chunk :: rest).flatten).map (fun item =>
              { index := item.index, result := defaultResult })
            (acc ++ defaults, true, w3, [startMsg])
        | .error .otherErr =>
            let ind := categorizeChunkIndividually aiEnabled chunk w3
            let acc' := acc ++ ind.1
            let rec1 := processChunks aiEnabled cachedCount totalTasks rest acc'
              ind.2.1
            (rec1.1, rec1.2.1, rec1.2.2.1,
             startMsg :: (ind.2.2 ++ rec1.2.2.2))

/-- Return shape of `categorizeTasksBatch`. -/
structure BatchResponse where
  results : List CatResult
  rateLimitHit : Bool
  categorizedCount : Nat
  defaultCount : Nat
deriving Repr, DecidableEq

/-- Model of `categorizeTasksBatch` (also returning the progress-callback
payloads it issued, in order).  The source's outer try/catch fallback is
unreachable in the embedding: both throwing callees are caught inside the
loop, so it is not modeled. -/
def categorizeTasksBatch (tasks : List Task) (aiEnabled : Bool) (w : World) :
    BatchResponse × World × List ProgressMsg :=
  if tasks.isEmpty then
    ({ results := [], rateLimitHit := false,
       categorizedCount := 0, defaultCount := 0 }, w, [])
  else if !aiEnabled then
    ({ results := tasks.map (fun _ => defaultResult), rateLimitHit := false,
       categorizedCount := 0, defaultCount := tasks.length }, w, [])
  else
    let now := (tick w).1
    let w1 := (tick w).2
    let sep := separateCachedTasks now w1.svc.cache tasks
    let cachedResults := sep.1
    let uncachedTasks := sep.2
    let w2 := { w1 with svc := { w1.svc with health := { w1.svc.health with
      cacheHits := w1.svc.health.cacheHits + cachedResults.length } } }
    let cacheMsg : ProgressMsg :=
      { step := "categorizing",
        currentStep := "Found cached, categorizing new tasks...",
        processedTasks := some cachedResults.length,
        totalTasks := some tasks.length,
        categorizedTasks := some cachedResults.length,
        defaultTasks := none, rateLimitHit := none }
    if uncachedTasks.isEmpty then
      let c := combineResults cachedResults [] tasks
      ({ results := c.results, rateLimitHit := false,
         categorizedCount := c.categorizedCount,
         defaultCount := c.defaultCount }, w2, [cacheMsg])
    else
      let chunks := createOptimalChunks uncachedTasks {}
      let pc := processChunks aiEnabled cachedResults.length tasks.length
        chunks [] w2
      let c := combineResults cachedResults pc.1 tasks
      ({ results := c.results, rateLimitHit := pc.2.1,
         categorizedCount := c.categorizedCount,
         defaultCount := c.defaultCount }, pc.2.2.1, cacheMsg :: pc.2.2.2)

/-! ## Progress tracker (services/progressTracker.js)

Time-bookkeeping fields (`startTime`, `lastUpdate`, `createdAt`) and the
removal timers are not load-bearing for any claim and are omitted; the
record's observable fields are modeled in full. -/

/-- One job's progress record. -/
structure Progress where
  status : String
  currentStep : String
  progress : Nat
  totalTasks : Nat
  processedTasks : Nat
  categorizedTasks : Nat
  defaultTasks : Nat
  rateLimitHit : Bool
  error : Option String
deriving Repr, DecidableEq

/-- Model of `initializeProgress`. -/
def initializeProgress (totalTasks : Nat) : Progress :=
  { status := "initializing", currentStep := "Initializing...",
    progress := 0, totalTasks := totalTasks, processedTasks := 0,
    categorizedTasks := 0, defaultTasks := 0, rateLimitHit := false,
    error := none }

/-- A partial-update object passed to `updateProgress` (absent fields are
not merged). -/
structure ProgUpdates where
  status : Option String := none
  currentStep : Option String := none
  progress : Option Nat := none
  totalTasks : Option Nat := none
  processedTasks : Option Nat := none
  categorizedTasks : Option Nat := none
  defaultTasks : Option Nat := none
  rateLimitHit : Option Bool := none
deriving Repr, DecidableEq

/-- Model of JS `Math.round(num/den)` for non-negative operands; the
division-by-zero NaN is modeled as 0. -/
def jsRound (num den : Nat) : Nat :=
  if den = 0 then 0 else (2 * num + den) / (2 * den)

/-- Model of `updateProgress`'s `Object.assign(progress, updates, {...})`:
the update fields are merged, but the trailing literal then overwrites
`progress` — with a percentage recomputed from the supplied
`processedTasks` over the record's previous `totalTasks` when
`processedTasks` is present, and with the record's previous `progress`
otherwise (so an explicit `progress` field in `updates` never survives). -/
def updateProgress (p : Progress) (u : ProgUpdates) : Progress :=
  let merged : Progress :=
    { status := u.status.getD p.status,
      currentStep := u.currentStep.getD p.currentStep,
      progress := u.progress.getD p.progress,
      totalTasks := u.totalTasks.getD p.totalTasks,
      processedTasks := u.processedTasks.getD p.processedTasks,
      categorizedTasks := u.categorizedTasks.getD p.categorizedTasks,
      defaultTasks := u.defaultTasks.getD p.defaultTasks,
      rateLimitHit := u.rateLimitHit.getD p.rateLimitHit,
      error := p.error }
  { merged with progress :=
      (match u.processedTasks with
       | some n => min 100 (jsRound (n * 100) p.totalTasks)
       | none => p.progress) }

/-- Model of `completeProgress` with the final fields the pipeline passes
(the persisted upload-record reference id is out of scope). -/
def completeProgress (p : Progress) (processedTasks categorizedTasks
    defaultTasks : Nat) (rateLimitHit : Bool) : Progress :=
  { p with
    status := "completed", currentStep := "Completed",
    progress := 100, processedTasks := processedTasks,
    categorizedTasks := categorizedTasks, defaultTasks := defaultTasks,
    rateLimitHit := rateLimitHit }

/-- Model of `failProgress`. -/
def failProgress (p : Progress) (err : String) : Progress :=
  { p with status := "failed", currentStep := "Failed", error := some err }

/-! ## Ingestion pipeline (controllers/uploadController.js) -/

/-- An uploaded CSV file: header line plus data rows (each row an ordered
key/value record as csv-parser yields it). -/
structure CsvFile where
  headers : List String
  rows : List (List (String × String))
deriving Repr, DecidableEq

/-- The required header names, lower-cased. -/
def requiredHeaders : List String := ["firstname", "phone", "notes"]

/-- Model of the header validation: every required header must occur among
the lower-cased file headers. -/
def headersValid (csv : CsvFile) : Bool :=
  requiredHeaders.all (fun h => (csv.headers.map toLowerStr).contains h)

/-- Field lookup after the source's row normalization (every key
lower-cased; a later duplicate key overwrites an earlier one). -/
def rowGet (row : List (String × String)) (key : String) : Option String :=
  (row.reverse.find? (fun p => toLowerStr p.1 = key)).map (fun p => p.2)

/-- Build the in-memory task from one CSV row. -/
def taskOfRow (row : List (String × String)) : Task :=
  { firstName := rowGet row "firstname",
    phone := rowGet row "phone",
    notes := rowGet row "notes" }

/-- A task as handed to the bulk insert: merged categorization fields and
the round-robin agent reference (an agent's id). -/
structure DistTask where
  firstName : Option String
  phone : Option String
  notes : Option String
  category : String
  categorySource : String
  categorizedAt : Option Nat
  categoryConfidence : Option Nat
  agent : Nat
deriving Repr, DecidableEq

/-- The summary record persisted about one ingestion attempt. -/
structure UploadRec where
  status : String
  errorMessage : Option String
  rowCount : Nat
  tasksCreated : Nat
deriving Repr, DecidableEq

/-- Everything observable about one run of the background processor. -/
structure PipelineResult where
  inserted : List DistTask
  upload : Option UploadRec
  fileDeleted : Bool
  trace : List Progress
  world : World
deriving Repr, DecidableEq

/-- Validation failure message of the header check. -/
def invalidCsvMsg : String :=
  "Invalid CSV format. Required headers: FirstName, Phone, Notes"

/-- Merge the categorization responses onto the parsed tasks and assign
agents round-robin (`agents[index % agents.length]`), as the source does
in two consecutive `map`s.  `now` stands for the `new Date()` stamped on
ai-categorized tasks. -/
def distributeTasks (tasks : List Task) (results : List CatResult)
    (agents : List Nat) (now : Nat) : List DistTask :=
  tasks.mapIdx (fun i t =>
    { firstName := t.firstName, phone := t.phone, notes := t.notes,
      category := ((results.get? i).map (fun r => r.category)).getD "General",
      categorySource :=
        ((results.get? i).map (fun r => r.source)).getD "default",
      categorizedAt :=
        if ((results.get? i).map (fun r => r.source)).getD "default" = "ai"
        then some now else none,
      categoryConfidence := (results.get? i).bind (fun r => r.confidence),
      agent := (agents.get? (i % agents.length)).getD 0 })

/-- One step of the progress-callback wrapper inside `processUpload`: the
closure counters pick up `categorizedTasks`/`defaultTasks` when present,
then `updateProgress` is called with the wrapper's update object.  The fold
state is (current record, snapshots so far in reverse, closure counters). -/
def wrapperStep (totalLen : Nat)
    (st : Progress × List Progress × Nat × Nat) (m : ProgressMsg) :
    Progress × List Progress × Nat × Nat :=
  let curCat := (m.categorizedTasks).getD st.2.2.1
  let curDef := (m.defaultTasks).getD st.2.2.2
  let upd : ProgUpdates :=
    { status := some m.step,
      currentStep := some m.currentStep,
      progress := some (min 90
        (20 + jsRound (m.processedTasks.getD 0 * 70) totalLen)),
      processedTasks := some (m.processedTasks.getD 0),
      categorizedTasks := some curCat,
      defaultTasks := some curDef,
      rateLimitHit := some (m.rateLimitHit.getD false) }
  let p2 := updateProgress st.1 upd
  (p2, p2 :: st.2.1, curCat, curDef)

/-- Model of `processUpload`: parse (header check first — an invalid header
set aborts before any row is accepted), categorize with the progress
wrapper, merge, assign agents round-robin, bulk-insert, finalize records,
delete the file.  `p0` is the record `initializeProgress` created; the
returned trace lists every state the record passed through. -/
def processUpload (csv : CsvFile) (aiEnabled : Bool) (agents : List Nat)
    (p0 : Progress) (w : World) : PipelineResult :=
  let p1 := updateProgress p0
    { status := some "parsing", currentStep := some "Parsing CSV file...",
      progress := some 5 }
  if !headersValid csv then
    let pF := failProgress p1 invalidCsvMsg
    { inserted := [],
      upload := some { status := "failed", errorMessage := some invalidCsvMsg,
                       rowCount := 0, tasksCreated := 0 },
      fileDeleted := true, trace := [p0, p1, pF], world := w }
  else
    let tasks := csv.rows.map taskOfRow
    let p2 := updateProgress p1
      { status := some "categorizing",
        currentStep := some "Starting categorization...",
        progress := some 20, totalTasks := some tasks.length,
        processedTasks := some 0 }
    let cb := categorizeTasksBatch tasks aiEnabled w
    let resp := cb.1
    let w1 := cb.2.1
    let msgs := cb.2.2
    let folded := msgs.foldl (wrapperStep tasks.length) (p2, [], 0, 0)
    let pAfter := folded.1
    let snaps := folded.2.1.reverse
    let merged := distributeTasks tasks resp.results agents w1.lastNow
    let p3 := updateProgress pAfter
      { status := some "saving",
        currentStep := some "Saving tasks to database...",
        progress := some 95, processedTasks := some tasks.length }
    let p4 := completeProgress p3 tasks.length resp.categorizedCount
      resp.defaultCount resp.rateLimitHit
    { inserted := merged,
      upload := some { status := "success", errorMessage := none,
                       rowCount := tasks.length,
                       tasksCreated := merged.length },
      fileDeleted := true,
      trace := [p0, p1, p2] ++ snaps ++ [p3, p4], world := w1 }

/-- Outcome of the upload-accepting request handler. -/
inductive UploadOutcome
  | noFile
  | noAgents
  | started (estimatedTasks : Nat) (r : PipelineResult)
deriving Repr, DecidableEq

/-- Model of `uploadCSV` for an authenticated admin caller: reject a
missing file, reject an empty agent roster (before a job id or progress
record exists and before any row is read), otherwise initialize the
progress record from the byte-size estimate and run the processor. -/
def uploadCSV (filePresent : Bool) (agents : List Nat) (csv : CsvFile)
    (fileSize : Nat) (aiEnabled : Bool) (w : World) : UploadOutcome :=
  if !filePresent then .noFile
  else if agents.isEmpty then .noAgents
  else
    let estimatedTasks := max 1 (fileSize / 100)
    let p0 := initializeProgress estimatedTasks
    .started estimatedTasks (processUpload csv aiEnabled agents p0 w)

/-! ## Lemmas about the chunking loop -/

theorem chunkLoop_flatten (cfg : ChunkConfig) :
    ∀ (l cur : List TaggedTask) (tok : Nat),
      (chunkLoop cfg l cur tok).flatten = cur ++ l := by
  intro l
  induction l with
  | nil =>
      intro cur tok
      by_cases h : cur.isEmpty
      · simp [chunkLoop, h, List.isEmpty_iff.mp h]
      · simp [chunkLoop, h]
  | cons item rest ih =>
      intro cur tok
      simp only [chunkLoop]
      split
      · split
        · simp [ih]
        · rw [ih]; simp
      · rw [ih]; simp

theorem chunkLoop_ne_nil (cfg : ChunkConfig) :
    ∀ (l cur : List TaggedTask) (tok : Nat), cur ≠ [] →
      chunkLoop cfg l cur tok ≠ [] := by
  intro l
  induction l with
  | nil =>
      intro cur tok hcur
      simp [chunkLoop, List.isEmpty_iff, hcur]
  | cons item rest ih =>
      intro cur tok hcur
      simp only [chunkLoop]
      split
      · split
        · simp
        · exact ih _ _ (by simp)
      · exact ih _ _ (by simp)

theorem chunkLoop_dropLast_min (cfg : ChunkConfig) :
    ∀ (l cur : List TaggedTask) (tok : Nat),
      ∀ c ∈ (chunkLoop cfg l cur tok).dropLast, cfg.minChunkSize ≤ c.length := by
  intro l
  induction l with
  | nil =>
      intro cur tok c hc
      by_cases h : cur.isEmpty <;> simp [chunkLoop, h] at hc
  | cons item rest ih =>
      intro cur tok c hc
      simp only [chunkLoop] at hc
      split at hc
      · split at hc
        next hmin =>
          have hne := chunkLoop_ne_nil cfg rest [item]
            (estimateTokens (item.task.notes.getD "") + 10) (by simp)
          rw [List.dropLast_cons_of_ne_nil hne, List.mem_cons] at hc
          rcases hc with rfl | hc
          · exact hmin
          · exact ih _ _ c hc
        next hmin => exact ih _ _ c hc
      · exact ih _ _ c hc

/-- Tag a task list with its positions, for concrete chunking scenarios. -/
def tagTasks (tasks : List Task) : List TaggedTask :=
  (List.range tasks.length).zipWith
    (fun i t => { index := i, task := t }) tasks

/-- Twenty short uncached items, the spec's chunking scenario. -/
def demoTasks20 : List Task :=
  (List.range 20).map (fun i =>
    { firstName := some "p", phone := some "1",
      notes := some ("note" ++ Nat.repr i) })

/-- The chunks the default configuration produces for the 20-item scenario. -/
def demoChunks : List (List TaggedTask) :=
  createOptimalChunks (tagTasks demoTasks20) {}

/-- C4: `createOptimalChunks` partitions its input: concatenating the
chunks in order gives back exactly the input list (every item in exactly
one chunk, order preserved); every chunk except possibly the last was
closed with at least `minItemsPerChunk` items (a chunk is closed early only
when it already meets the minimum — otherwise the overflowing item is
force-added); and 20 short uncached items under the default limits
(15 items / 2000 tokens / minimum 5) yield exactly 2 chunks of sizes 15
and 5. -/
theorem createOptimalChunks_partition :
    (∀ (tasks : List TaggedTask) (cfg : ChunkConfig),
      (createOptimalChunks tasks cfg).flatten = tasks) ∧
    (∀ (tasks : List TaggedTask) (cfg : ChunkConfig),
      ∀ c ∈ (createOptimalChunks tasks cfg).dropLast,
        cfg.minChunkSize ≤ c.length) ∧
    demoChunks.map List.length = [15, 5] := by
  refine ⟨fun tasks cfg => ?_, fun tasks cfg c hc => ?_, by decide⟩
  · simpa using chunkLoop_flatten cfg tasks [] 0
  · exact chunkLoop_dropLast_min cfg tasks [] 0 c hc

/-- Witness for C4 at concrete inputs: the 20-item scenario's chunks
concatenate back to the input, its first chunk is a non-final chunk meeting
the 5-item minimum, and the chunk sizes are 15 and 5. -/
theorem createOptimalChunks_partition_witness :
    demoChunks.flatten = tagTasks demoTasks20 ∧
    (demoChunks.headD [] ∈ demoChunks.dropLast ∧
     (5 : Nat) ≤ (demoChunks.headD []).length) ∧
    demoChunks.map List.length = [15, 5] :=
  ⟨createOptimalChunks_partition.1 (tagTasks demoTasks20) {},
   ⟨by decide,
    createOptimalChunks_partition.2.1 (tagTasks demoTasks20) {}
      (demoChunks.headD []) (by decide)⟩,
   createOptimalChunks_partition.2.2⟩

/-! ## Lemmas about the cache -/

theorem cacheGet_eq_none_iff (c : Cache) (k : String) :
    cacheGet c k = none ↔ k ∉ c.map Prod.fst := by
  unfold cacheGet
  rw [Option.map_eq_none', List.find?_eq_none]
  constructor
  · intro h hk
    rcases List.mem_map.mp hk with ⟨p, hp, hpk⟩
    exact absurd (by simpa using hpk) (by simpa using h p hp)
  · intro h p hp
    simp only [decide_eq_true_eq]
    intro hpk
    exact h (List.mem_map.mpr ⟨p, hp, hpk⟩)

theorem cacheSet_of_fresh {c : Cache} {k : String} (h : cacheGet c k = none)
    (v : CacheEntry) : cacheSet c k v = c ++ [(k, v)] := by
  unfold cacheSet
  have hf : c.find? (fun p => p.1 = k) = none := by
    unfold cacheGet at h
    exact Option.map_eq_none'.mp h
  simp [hf]

theorem cacheSet_length_of_fresh {c : Cache} {k : String}
    (h : cacheGet c k = none) (v : CacheEntry) :
    (cacheSet c k v).length = c.length + 1 := by
  rw [cacheSet_of_fresh h v]
  simp

theorem cacheSet_length_le (c : Cache) (k : String) (v : CacheEntry) :
    (cacheSet c k v).length ≤ c.length + 1 := by
  unfold cacheSet
  split
  · simp
  · simp

theorem cacheGet_map_replace_ne {c : Cache} {k k' : String} (hne : k' ≠ k)
    (v : CacheEntry) :
    cacheGet (c.map (fun p => if p.1 = k then (k, v) else p)) k' =
      cacheGet c k' := by
  induction c with
  | nil => rfl
  | cons p ps ih =>
      by_cases hp : p.1 = k
      · have h1 : (if p.1 = k then (k, v) else p) = (k, v) := if_pos hp
        have hk' : decide ((k, v).1 = k') = false :=
          decide_eq_false (by simpa using Ne.symm hne)
        have hpk' : decide (p.1 = k') = false :=
          decide_eq_false (by rw [hp]; exact Ne.symm hne)
        simp only [cacheGet, List.map_cons, List.find?_cons, h1, hk', hpk']
          at *
        exact ih
      · have h1 : (if p.1 = k then (k, v) else p) = p := if_neg hp
        simp only [cacheGet, List.map_cons, List.find?_cons, h1]
        cases hm : (decide (p.1 = k')) with
        | true => simp
        | false => simp only [cacheGet] at ih; rw [ih]

theorem cacheGet_map_replace_eq {c : Cache} {k : String}
    (h : (c.find? (fun p => p.1 = k)).isSome) (v : CacheEntry) :
    cacheGet (c.map (fun p => if p.1 = k then (k, v) else p)) k = some v := by
  induction c with
  | nil => simp [List.find?_nil] at h
  | cons p ps ih =>
      by_cases hp : p.1 = k
      · have h1 : (if p.1 = k then (k, v) else p) = (k, v) := if_pos hp
        simp [cacheGet, List.find?_cons, h1]
      · have h1 : (if p.1 = k then (k, v) else p) = p := if_neg hp
        have h2 : (ps.find? (fun p => p.1 = k)).isSome := by
          rw [List.find?_cons] at h
          simpa [hp] using h
        have hpk : decide (p.1 = k) = false := decide_eq_false hp
        simp only [cacheGet, List.map_cons, List.find?_cons, h1, hpk]
        simp only [cacheGet] at ih
        exact ih h2

theorem cacheGet_append_singleton_eq {c : Cache} {k : String}
    (h : cacheGet c k = none) (v : CacheEntry) :
    cacheGet (c ++ [(k, v)]) k = some v := by
  induction c with
  | nil => simp [cacheGet, List.find?_cons]
  | cons p ps ih =>
      have hp : ¬(p.1 = k) := by
        intro hpk
        rw [cacheGet_eq_none_iff] at h
        exact h (List.mem_map.mpr ⟨p, List.mem_cons_self _ _, hpk⟩)
      have h2 : cacheGet ps k = none := by
        rw [cacheGet_eq_none_iff] at h ⊢
        intro hk
        exact h (by simpa using Or.inr hk)
      have hpk : decide (p.1 = k) = false := decide_eq_false hp
      simp only [cacheGet, List.cons_append, List.find?_cons, hpk]
      simp only [cacheGet] at ih
      exact ih h2

theorem cacheGet_append_singleton_ne {c : Cache} {k k' : String}
    (hne : k' ≠ k) (v : CacheEntry) :
    cacheGet (c ++ [(k, v)]) k' = cacheGet c k' := by
  induction c with
  | nil =>
      have : decide ((k, v).1 = k') = false :=
        decide_eq_false (by simpa using Ne.symm hne)
      simp [cacheGet, List.find?_cons, this]
  | cons p ps ih =>
      cases hm : (decide (p.1 = k')) with
      | true => simp [cacheGet, List.find?_cons, hm]
      | false =>
          simp only [cacheGet, List.cons_append, List.find?_cons, hm] at *
          exact ih

/-- The `Map.set` model behaves as expected on reads. -/
theorem cacheGet_cacheSet (c : Cache) (k : String) (v : CacheEntry)
    (k' : String) :
    cacheGet (cacheSet c k v) k' = if k' = k then some v else cacheGet c k' := by
  unfold cacheSet
  by_cases hc : (c.find? (fun p => p.1 = k)).isSome
  · rw [if_pos hc]
    by_cases hk : k' = k
    · subst hk
      rw [if_pos rfl]
      exact cacheGet_map_replace_eq hc v
    · rw [if_neg hk]
      exact cacheGet_map_replace_ne hk v
  · rw [if_neg hc]
    have hnone : cacheGet c k = none := by
      unfold cacheGet
      rcases hf : c.find? (fun p => p.1 = k) with _ | p
      · rw [hf]; rfl
      · exact absurd (by rw [hf]; rfl) hc
    by_cases hk : k' = k
    · subst hk
      rw [if_pos rfl]
      exact cacheGet_append_singleton_eq hnone v
    · rw [if_neg hk]
      exact cacheGet_append_singleton_ne hk v

theorem evict_filter_length (c sorted : Cache) (hperm : sorted.Perm c)
    (hn : (c.map Prod.fst).Nodup) :
    (c.filter (fun e =>
      !(((sorted.take 200).map Prod.fst).contains e.1))).length =
      c.length - 200 := by
  have hfp := (hperm.filter
    (fun e => !(((sorted.take 200).map Prod.fst).contains e.1))).symm
  have hkeys : (sorted.map Prod.fst).Nodup := by
    rw [(hperm.map Prod.fst).nodup_iff]
    exact hn
  have hkeysplit : (sorted.take 200).map Prod.fst ++
      (sorted.drop 200).map Prod.fst = sorted.map Prod.fst := by
    rw [← List.map_append, List.take_append_drop]
  have hdisj : ∀ x ∈ (sorted.drop 200).map Prod.fst,
      x ∉ (sorted.take 200).map Prod.fst := by
    intro x hx
    have := hkeysplit ▸ hkeys
    rcases List.nodup_append.mp this with ⟨_, _, hdis⟩
    intro hmem
    exact hdis hmem hx
  have htake : (sorted.take 200).filter (fun e =>
      !(((sorted.take 200).map Prod.fst).contains e.1)) = [] := by
    rw [List.filter_eq_nil_iff]
    intro e he
    have hmem : e.1 ∈ (sorted.take 200).map Prod.fst :=
      List.mem_map.mpr ⟨e, he, rfl⟩
    have hc : ((sorted.take 200).map Prod.fst).contains e.1 = true :=
      List.elem_iff.mpr hmem
    rw [hc]
    simp
  have hdrop : (sorted.drop 200).filter (fun e =>
      !(((sorted.take 200).map Prod.fst).contains e.1)) = sorted.drop 200 := by
    rw [List.filter_eq_self]
    intro e he
    have hmem : e.1 ∉ (sorted.take 200).map Prod.fst :=
      hdisj e.1 (List.mem_map.mpr ⟨e, he, rfl⟩)
    have hc : ((sorted.take 200).map Prod.fst).contains e.1 = false := by
      cases h2 : ((sorted.take 200).map Prod.fst).contains e.1 with
      | false => rfl
      | true => exact absurd (List.elem_iff.mp h2) hmem
    rw [hc]
    rfl
  have hsplit : sorted.filter (fun e =>
      !(((sorted.take 200).map Prod.fst).contains e.1)) =
      (sorted.take 200).filter (fun e =>
        !(((sorted.take 200).map Prod.fst).contains e.1)) ++
      (sorted.drop 200).filter (fun e =>
        !(((sorted.take 200).map Prod.fst).contains e.1)) := by
    rw [← List.filter_append, List.take_append_drop]
  calc (c.filter (fun e =>
        !(((sorted.take 200).map Prod.fst).contains e.1))).length
      = (sorted.filter (fun e =>
        !(((sorted.take 200).map Prod.fst).contains e.1))).length :=
        hfp.length_eq
    _ = c.length - 200 := by
        rw [hsplit, htake, hdrop]
        simp only [List.nil_append, List.length_drop]
        rw [hperm.length_eq]

/-- Size of the eviction pass: with pairwise-distinct keys and at least 200
entries, exactly the 200 oldest entries are removed. -/
theorem evictOldest_length {c : Cache} (hn : (c.map Prod.fst).Nodup) :
    (evictOldest c).length = c.length - 200 :=
  evict_filter_length c _ (List.mergeSort_perm c _) hn

/-- Size of the single-item write path: a fresh insert grows the store by
one, except that crossing the 1000-entry cap triggers the batch eviction of
the 200 oldest entries. -/
theorem cacheWriteSingle_length {c : Cache} {k : String}
    (hfresh : cacheGet c k = none) (hn : (c.map Prod.fst).Nodup)
    (v : CacheEntry) :
    (cacheWriteSingle c k v).length =
      if c.length + 1 > 1000 then c.length + 1 - 200 else c.length + 1 := by
  unfold cacheWriteSingle
  rw [cacheSet_of_fresh hfresh v]
  have hlen : (c ++ [(k, v)]).length = c.length + 1 := by simp
  have hn2 : ((c ++ [(k, v)]).map Prod.fst).Nodup := by
    rw [List.map_append, List.nodup_append]
    refine ⟨hn, by simp, ?_⟩
    intro x hx
    simp only [List.map_cons, List.map_nil, List.mem_singleton]
    intro hxk
    exact (cacheGet_eq_none_iff c k).mp hfresh (hxk ▸ hx)
  by_cases hcap : c.length + 1 > 1000
  · rw [if_pos (by omega : (c ++ [(k, v)]).length > 1000), if_pos hcap]
    rw [evictOldest_length hn2]
    omega
  · rw [if_neg (by omega : ¬(c ++ [(k, v)]).length > 1000), if_neg hcap]
    exact hlen

/-- The batch write path never evicts: a fresh insert always grows the
store by one, regardless of the cap. -/
theorem cacheWriteBatch_length {c : Cache} {k : String}
    (hfresh : cacheGet c k = none) (v : CacheEntry) :
    (cacheWriteBatch c k v).length = c.length + 1 :=
  cacheSet_length_of_fresh hfresh v

/-- Distinct cache keys for the at-cap scenario. -/
def natKey (i : Nat) : String := ⟨List.replicate i 'a'⟩

/-- A classification cache holding exactly 1000 distinct entries. -/
def bigCache1000 : Cache :=
  (List.range 1000).map (fun i =>
    (natKey i, { category := "General", confidence := none, timestamp := i }))

/-- A fresh entry as written after a successful chunk batch call. -/
def freshEntry : CacheEntry :=
  { category := "Sales", confidence := none, timestamp := 5000 }

theorem natKey_injective : Function.Injective natKey := by
  intro i j h
  have hd : (natKey i).data = (natKey j).data := by rw [h]
  simpa [natKey] using congrArg List.length hd

theorem bigCache1000_keys : bigCache1000.map Prod.fst =
    (List.range 1000).map natKey := by
  simp [bigCache1000, List.map_map]

theorem bigCache1000_nodup : (bigCache1000.map Prod.fst).Nodup := by
  rw [bigCache1000_keys]
  exact (List.nodup_range 1000).map natKey_injective

theorem bigCache1000_fresh : cacheGet bigCache1000 "k-new" = none := by
  rw [cacheGet_eq_none_iff, bigCache1000_keys]
  intro hmem
  rcases List.mem_map.mp hmem with ⟨i, _, hk⟩
  have hlen : i = 5 := by
    simpa [natKey] using congrArg (fun s : String => s.data.length) hk
  rw [hlen] at hk
  exact absurd hk (by decide)

/-- C6 (code-bug evidence): with the store at its 1000-entry cap and a
fresh content digest, the per-item write performed after a successful chunk
batch call leaves 1001 entries — no eviction pass runs on that path — while
the single-item classification write path at the very same input evicts the
oldest 200 entries and leaves 801, which is what the claim (and the
repository's own documentation of a 1000-entry auto-cleaned cache)
prescribes for every write path. -/
theorem cacheWriteBatch_skips_eviction :
    bigCache1000.length = 1000 ∧
    cacheGet bigCache1000 "k-new" = none ∧
    (cacheWriteBatch bigCache1000 "k-new" freshEntry).length = 1001 ∧
    (cacheWriteSingle bigCache1000 "k-new" freshEntry).length = 801 := by
  have hlen : bigCache1000.length = 1000 := by simp [bigCache1000]
  refine ⟨hlen, bigCache1000_fresh, ?_, ?_⟩
  · rw [cacheWriteBatch_length bigCache1000_fresh freshEntry, hlen]
  · rw [cacheWriteSingle_length bigCache1000_fresh bigCache1000_nodup
      freshEntry, hlen]
    norm_num

/-! ## Preservation lemmas: discovery never touches the cache -/

theorem tick_svc (w : World) : (tick w).2.svc = w.svc := by
  unfold tick
  split <;> rfl

theorem scanModels_cache :
    ∀ (models : List String) (w : World),
      (scanModels models w).2.svc.cache = w.svc.cache := by
  intro models
  induction models with
  | nil => intro w; rfl
  | cons m rest ih =>
      intro w
      simp only [scanModels]
      split
      · simp [tick_svc]
      · split <;> simp [ih, popProbe, tick_svc]

theorem discoverWorkingModel_cache (forceRefresh : Bool) (now : Nat)
    (w : World) :
    (discoverWorkingModel forceRefresh now w).2.svc.cache = w.svc.cache := by
  unfold discoverWorkingModel
  repeat' split
  all_goals first
    | rfl
    | rw [scanModels_cache]
    | (dsimp only; split <;> simp [scanModels_cache])

theorem getWorkingModel_cache (w : World) :
    (getWorkingModel w).2.svc.cache = w.svc.cache := by
  unfold getWorkingModel
  split
  · rfl
  · rw [discoverWorkingModel_cache, tick_svc]

/-! ## The success path of categorizeTask caches its result -/

theorem cacheGet_cacheWriteSingle_self {c : Cache} {k : String}
    (hcap : c.length < 1000) (v : CacheEntry) :
    cacheGet (cacheWriteSingle c k v) k = some v := by
  unfold cacheWriteSingle
  have hle := cacheSet_length_le c k v
  rw [if_neg (by omega)]
  rw [cacheGet_cacheSet]
  simp

theorem popGen_svc (w : World) : (popGen w).2.svc = w.svc := rfl

theorem recordSuccess_cache (now : Nat) (w : World) :
    (recordSuccess now w).svc.cache = w.svc.cache := rfl

theorem genAttemptLoop_success {k : String} {now : Nat} :
    ∀ (fuel : Nat) (w : World) (r : CatResult),
      (genAttemptLoop (some k) now fuel w).1 = .success r →
      w.svc.cache.length < 1000 →
      r.source = "ai" ∧ r.confidence = none ∧
      cacheGet (genAttemptLoop (some k) now fuel w).2.svc.cache k =
        some { category := r.category, confidence := none, timestamp := now } := by
  intro fuel
  induction fuel with
  | zero =>
      intro w r h1 hcap
      simp [genAttemptLoop] at h1
  | succ fuel ih =>
      intro w r h1 hcap
      cases hgen : (popGen w).1 with
      | text s =>
          simp only [genAttemptLoop, hgen] at h1 ⊢
          cases h1
          refine ⟨rfl, rfl, ?_⟩
          exact cacheGet_cacheWriteSingle_self hcap _
      | rate =>
          simp only [genAttemptLoop, hgen] at h1
          exact absurd h1 (by simp)
      | notFound =>
          by_cases hf : fuel ≥ 1
          · simp only [genAttemptLoop, hgen, if_pos hf] at h1 ⊢
            refine ih _ _ h1 ?_
            simpa [popGen, tick_svc, discoverWorkingModel_cache] using hcap
          · simp only [genAttemptLoop, hgen, if_neg hf] at h1
            exact absurd h1 (by simp)
      | other =>
          by_cases hf : fuel ≥ 1
          · simp only [genAttemptLoop, hgen, if_pos hf] at h1 ⊢
            refine ih _ _ h1 ?_
            simpa [popGen] using hcap
          · simp only [genAttemptLoop, hgen, if_neg hf] at h1
            exact absurd h1 (by simp)

theorem bumpTotalRequests_cache (w : World) :
    (bumpTotalRequests w).svc.cache = w.svc.cache := rfl

theorem bumpTotalRequests_rate (w : World) :
    (bumpTotalRequests w).svc.rate = w.svc.rate := rfl

theorem bumpTotalRequests_calls (w : World) :
    (bumpTotalRequests w).calls = w.calls := rfl

theorem bumpCacheHits_calls (w : World) :
    (bumpCacheHits w).calls = w.calls := rfl

theorem generateCacheKey_of_ne {s : String} (h : s ≠ "") :
    generateCacheKey s = some (trimStr (toLowerStr s)) := by
  unfold generateCacheKey
  rw [if_neg h]

/-- The try-block, when it returns a result with source `ai`, has cached
that label under the key with the call's timestamp. -/
theorem categorizeTaskCall_ai {k : String} {now : Nat} {w1 : World}
    {r : CatResult}
    (hcap : w1.svc.cache.length < 1000)
    (h1 : (categorizeTaskCall (some k) now w1).1 = .ok r)
    (hai : r.source = "ai") :
    cacheGet (categorizeTaskCall (some k) now w1).2.svc.cache k =
      some { category := r.category, confidence := none, timestamp := now } := by
  cases hgm : (getWorkingModel w1).1 with
  | none =>
      simp only [categorizeTaskCall, hgm] at h1
      cases h1
      exact absurd hai (by decide)
  | some m =>
      have hcap3 : ({ (getWorkingModel w1).2 with
          svc := { (getWorkingModel w1).2.svc with
            rate := incrementRateLimit (getWorkingModel w1).2.svc.rate } }
            : World).svc.cache.length < 1000 := by
        simpa [getWorkingModel_cache] using hcap
      cases hatt : (genAttemptLoop (some k) now 3
          ({ (getWorkingModel w1).2 with
            svc := { (getWorkingModel w1).2.svc with
              rate := incrementRateLimit (getWorkingModel w1).2.svc.rate } }
              : World)).1 with
      | success r2 =>
          simp only [categorizeTaskCall, hgm, hatt] at h1 ⊢
          cases h1
          exact (genAttemptLoop_success 3 _ r hatt hcap3).2.2
      | rateHit =>
          simp only [categorizeTaskCall, hgm, hatt] at h1
          exact absurd h1 (by simp)
      | failed =>
          simp only [categorizeTaskCall, hgm, hatt] at h1
          split at h1 <;>
            (cases h1; exact absurd hai (by decide))

/-- A first classification of fresh content that comes back with source
`ai` went through the success path, which cached the returned label under
the content key with the call's timestamp. -/
theorem categorizeTask_ai_writes {notes : String} {now : Nat} {w : World}
    {r : CatResult}
    (hne : trimStr notes ≠ "")
    (hfresh : isCacheValid (cacheGet w.svc.cache
      (trimStr (toLowerStr (trimStr notes)))) now = false)
    (hcap : w.svc.cache.length < 1000)
    (h1 : (categorizeTask notes true true now w).1 = .ok r)
    (hai : r.source = "ai") :
    cacheGet (categorizeTask notes true true now w).2.svc.cache
      (trimStr (toLowerStr (trimStr notes))) =
      some { category := r.category, confidence := none, timestamp := now } := by
  have hkey : generateCacheKey (trimStr notes) = some
      (trimStr (toLowerStr (trimStr notes))) := generateCacheKey_of_ne hne
  simp only [categorizeTask, if_neg hne, hkey, bumpTotalRequests_cache,
    bumpTotalRequests_rate, hfresh, Bool.true_and, Bool.not_true,
    Bool.false_eq_true, if_false] at h1 ⊢
  by_cases hchk : (checkRateLimit now w.svc.rate).1
  · rw [if_neg (by simp [hchk])] at h1 ⊢
    refine categorizeTaskCall_ai ?_ h1 hai
    simpa using hcap
  · rw [if_pos (by simp [hchk])] at h1
    have hr : defaultResult = r := by simpa using h1
    rw [← hr] at hai
    exact absurd hai (by decide)

theorem bumpCacheHits_cache (w : World) :
    (bumpCacheHits w).svc.cache = w.svc.cache := rfl

/-- A classification whose key holds a valid cache entry is answered from
the cache: the entry's label with source `ai`, no model resolution, no API
call, only the request/hit counters bumped. -/
theorem categorizeTask_cache_hit {notes : String} {now : Nat} {w : World}
    {entry : CacheEntry}
    (hne : trimStr notes ≠ "")
    (hget : cacheGet w.svc.cache
      (trimStr (toLowerStr (trimStr notes))) = some entry)
    (hvalid : now - entry.timestamp < CACHE_TTL) :
    categorizeTask notes true true now w =
      (.ok { category := entry.category, source := "ai",
             confidence := entry.confidence },
       bumpCacheHits (bumpTotalRequests w)) := by
  have hkey := generateCacheKey_of_ne hne
  have hv : isCacheValid (some entry) now = true := by
    simp [isCacheValid, hvalid]
  simp only [categorizeTask, if_neg hne, hkey, bumpTotalRequests_cache,
    hget, hv, Bool.true_and, Bool.and_true, if_true]
  simp only [bumpCacheHits_cache, bumpTotalRequests_cache, hget]

/-- C5 (amended): classifying the same content twice — byte-identical
after trimming and case-folding — within the cache TTL returns the same
label both times with source `ai` on the second call, and the second call
performs no network request, provided the first call itself performed a
successful AI classification (returned source `ai`) on fresh content with
the cache below its eviction threshold. -/
theorem categorizeTask_repeat_cache_hit (n₁ n₂ : String) (now₁ now₂ : Nat)
    (w : World) (r : CatResult) (w₁ : World)
    (hne : trimStr n₁ ≠ "")
    (hnorm : toLowerStr (trimStr n₂) = toLowerStr (trimStr n₁))
    (hfresh : isCacheValid (cacheGet w.svc.cache
      (trimStr (toLowerStr (trimStr n₁)))) now₁ = false)
    (hcap : w.svc.cache.length < 1000)
    (hrun : categorizeTask n₁ true true now₁ w = (.ok r, w₁))
    (hai : r.source = "ai")
    (hTTL : now₂ - now₁ < CACHE_TTL) :
    (categorizeTask n₂ true true now₂ w₁).1 =
      .ok { category := r.category, source := "ai", confidence := none } ∧
    (categorizeTask n₂ true true now₂ w₁).2.calls = w₁.calls := by
  have hne₂ : trimStr n₂ ≠ "" := by
    intro h0
    apply hne
    have hd : (trimList n₁.data).map lowerChar = [] := by
      have : toLowerStr (trimStr n₁) = toLowerStr (trimStr n₂) := hnorm.symm
      rw [h0] at this
      simpa [toLowerStr, trimStr] using congrArg String.data this.symm
    have h3 : trimList n₁.data = [] := List.map_eq_nil_iff.mp hd
    simp [trimStr, h3]
  have hkeq : trimStr (toLowerStr (trimStr n₂)) =
      trimStr (toLowerStr (trimStr n₁)) := by rw [hnorm]
  have h1 : (categorizeTask n₁ true true now₁ w).1 = .ok r :=
    congrArg Prod.fst hrun
  have h2 : (categorizeTask n₁ true true now₁ w).2 = w₁ :=
    congrArg Prod.snd hrun
  have hwrite := categorizeTask_ai_writes hne hfresh hcap h1 hai
  rw [h2] at hwrite
  have hget : cacheGet w₁.svc.cache
      (trimStr (toLowerStr (trimStr n₂))) =
      some { category := r.category, confidence := none, timestamp := now₁ } := by
    rw [hkeq]
    exact hwrite
  have hhit := categorizeTask_cache_hit hne₂ hget hTTL
  constructor
  · rw [congrArg Prod.fst hhit]
  · rw [congrArg Prod.snd hhit]
    rfl

/-- Baseline health statistics (module load state). -/
def baseHealth : HealthStats :=
  { totalRequests := 0, successfulRequests := 0, failedRequests := 0,
    cacheHits := 0, lastSuccessTime := none, lastFailureTime := none,
    consecutiveFailures := 0, isHealthy := true }

/-- A baseline world: empty cache, fresh rate window, a discovered working
model, and empty oracle streams. -/
def baseWorld : World :=
  { svc := { cache := [],
             rate := { requestCount := 0, rateLimitResetTime := 60000 },
             workingModel := some "gemini-2.5-flash",
             modelDiscoveryAttempts := 0, lastModelDiscoveryTime := 0,
             health := baseHealth },
    clock := [], lastNow := 0, probes := [], gens := [], batches := [],
    calls := 0 }

/-- Oracle for the C5 counterexample: the first call's three attempts all
fail with retryable errors, the next call succeeds. -/
def c5BadWorld : World :=
  { baseWorld with gens := [.other, .other, .other, .text "Support request"] }

/-- Oracle for the C5 witness: the first call succeeds at once. -/
def c5GoodWorld : World :=
  { baseWorld with gens := [.text "Support request"] }

/-- C5 (counterexample to the claim as stated): when the first
classification of the content fails (three retryable API errors) it
returns General with source `default` and caches nothing, so the second
call within the TTL goes back to the network (the call counter moves) and
returns a different label — the claim's "same label both times, second
from cache with no network request" is false without conditioning on the
first call's success. -/
theorem categorizeTask_repeat_counterexample :
    (categorizeTask "Need help with invoice" true true 1000 c5BadWorld).1 =
      .ok { category := "General", source := "default", confidence := none } ∧
    (categorizeTask "Need help with invoice" true true 2000
       (categorizeTask "Need help with invoice" true true 1000 c5BadWorld).2).1 =
      .ok { category := "Support", source := "ai", confidence := none } ∧
    ("General" : String) ≠ "Support" ∧
    ¬((categorizeTask "Need help with invoice" true true 2000
        (categorizeTask "Need help with invoice" true true 1000 c5BadWorld).2).2.calls =
      (categorizeTask "Need help with invoice" true true 1000 c5BadWorld).2.calls) :=
  ⟨by decide, by decide, by decide, by decide⟩

/-- Witness for the amended C5 at concrete inputs: a successful first
classification of "Need Help", then a second call on " need HELP " (the
same content after trim and case-fold) one second later is served from the
cache with source `ai` and no further API call. -/
theorem categorizeTask_repeat_cache_hit_witness :
    trimStr "Need Help" ≠ "" ∧
    toLowerStr (trimStr " need HELP ") = toLowerStr (trimStr "Need Help") ∧
    isCacheValid (cacheGet c5GoodWorld.svc.cache
      (trimStr (toLowerStr (trimStr "Need Help")))) 1000 = false ∧
    c5GoodWorld.svc.cache.length < 1000 ∧
    categorizeTask "Need Help" true true 1000 c5GoodWorld =
      (.ok { category := "Support", source := "ai", confidence := none },
       (categorizeTask "Need Help" true true 1000 c5GoodWorld).2) ∧
    (2000 - 1000 < CACHE_TTL) ∧
    ((categorizeTask " need HELP " true true 2000
        (categorizeTask "Need Help" true true 1000 c5GoodWorld).2).1 =
      .ok { category := "Support", source := "ai", confidence := none } ∧
     (categorizeTask " need HELP " true true 2000
        (categorizeTask "Need Help" true true 1000 c5GoodWorld).2).2.calls =
      (categorizeTask "Need Help" true true 1000 c5GoodWorld).2.calls) :=
  ⟨by decide, by decide, by decide, by decide, by decide, by decide,
   categorizeTask_repeat_cache_hit "Need Help" " need HELP " 1000 2000
     c5GoodWorld { category := "Support", source := "ai", confidence := none }
     (categorizeTask "Need Help" true true 1000 c5GoodWorld).2
     (by decide) (by decide) (by decide) (by decide) (by decide) rfl
     (by decide)⟩

/-! ## Lemmas about model discovery (claim C9) -/

theorem checkRateLimit_allowed {now : Nat} {rl : RateState}
    (h : rl.requestCount < 5) :
    (checkRateLimit now rl).1 = true ∧
    (checkRateLimit now rl).2.requestCount ≤ rl.requestCount := by
  unfold checkRateLimit
  by_cases hnow : now > rl.rateLimitResetTime
  · simp [hnow, MAX_REQUESTS_PER_MINUTE]
  · simp [hnow, MAX_REQUESTS_PER_MINUTE, h]

/-- Scanning past `j` candidates that all probe as failed (non-rate)
reaches the rest of the candidate list having consumed exactly `j` probe
outcomes, with the cached model, health and discovery-attempt counters
untouched and at most `j` extra budget slots spent. -/
theorem scanModels_skip_bads :
    ∀ (j : Nat) (models : List String) (w : World)
      (probes' : List ProbeOutcome),
      j ≤ models.length →
      w.svc.rate.requestCount + j ≤ 5 →
      w.probes = List.replicate j .bad ++ probes' →
      ∃ w', scanModels models w = scanModels (models.drop j) w' ∧
        w'.probes = probes' ∧
        w'.svc.workingModel = w.svc.workingModel ∧
        w'.svc.health = w.svc.health ∧
        w'.svc.modelDiscoveryAttempts = w.svc.modelDiscoveryAttempts ∧
        w'.svc.rate.requestCount ≤ w.svc.rate.requestCount + j := by
  intro j
  induction j with
  | zero =>
      intro models w probes' _ _ hp
      exact ⟨w, by simp, by simpa using hp, rfl, rfl, rfl, by omega⟩
  | succ j ih =>
      intro models w probes' hlen hcount hp
      cases models with
      | nil => simp at hlen
      | cons m ms =>
          have hcount1 : w.svc.rate.requestCount < 5 := by omega
          have htick : (tick w).2.svc = w.svc := tick_svc w
          have hallow := @checkRateLimit_allowed (tick w).1 (tick w).2.svc.rate
            (show ((tick w).2.svc.rate).requestCount < 5 by
              rw [htick]; exact hcount1)
          have hprobes2 : (tick w).2.probes = w.probes := by
            unfold tick; split <;> rfl
          have hhead : ((tick w).2.probes).headD .bad = .bad := by
            rw [hprobes2, hp]; rfl
          simp only [scanModels, Bool.not_eq_true]
          rw [hallow.1]
          simp only [Bool.not_true, Bool.false_eq_true, if_false]
          rw [show (popProbe { (tick w).2 with svc := { (tick w).2.svc with
                rate := (checkRateLimit (tick w).1 (tick w).2.svc.rate).2 } }).1
              = .bad from hhead]
          set w4 : World := { (popProbe { (tick w).2 with
            svc := { (tick w).2.svc with
              rate := (checkRateLimit (tick w).1 (tick w).2.svc.rate).2 } }).2
            with svc := { (popProbe { (tick w).2 with
              svc := { (tick w).2.svc with
                rate := (checkRateLimit (tick w).1 (tick w).2.svc.rate).2 } }).2.svc
              with rate := incrementRateLimit (popProbe { (tick w).2 with
                svc := { (tick w).2.svc with
                  rate := (checkRateLimit (tick w).1 (tick w).2.svc.rate).2 } }).2.svc.rate } }
            with hw4
          have h4probes : w4.probes = List.replicate j .bad ++ probes' := by
            rw [hw4]
            simp only [popProbe]
            rw [hprobes2, hp]
            rfl
          have h4model : w4.svc.workingModel = w.svc.workingModel := by
            rw [hw4]; simp [popProbe, htick]
          have h4health : w4.svc.health = w.svc.health := by
            rw [hw4]; simp [popProbe, htick]
          have h4att : w4.svc.modelDiscoveryAttempts =
              w.svc.modelDiscoveryAttempts := by
            rw [hw4]; simp [popProbe, htick]
          have h4count : w4.svc.rate.requestCount ≤
              w.svc.rate.requestCount + 1 := by
            rw [hw4]
            simp only [popProbe, incrementRateLimit]
            have h5 := hallow.2
            rw [htick] at h5
            rw [htick]
            omega
          rcases ih ms w4 probes' (by simpa using hlen)
            (by omega) h4probes with ⟨w', h1, h2, h3, h4, h5, h6⟩
          refine ⟨w', ?_, h2, by rw [h3, h4model], by rw [h4, h4health],
            by rw [h5, h4att], by omega⟩
          simpa using h1

theorem tick_probes (w : World) : (tick w).2.probes = w.probes := by
  unfold tick
  split <;> rfl

/-- A candidate whose probe succeeds wins immediately: it is cached, the
discovery-attempt and failure streaks reset, the manager is healthy, and
exactly one probe outcome was consumed (no further candidates tried). -/
theorem scanModels_head_ok (m : String) (rest : List String) (w : World)
    (hcount : w.svc.rate.requestCount < 5)
    (hprobe : w.probes.headD .bad = .ok) :
    (scanModels (m :: rest) w).1 = some m ∧
    (scanModels (m :: rest) w).2.svc.workingModel = some m ∧
    (scanModels (m :: rest) w).2.svc.modelDiscoveryAttempts = 0 ∧
    (scanModels (m :: rest) w).2.svc.health.consecutiveFailures = 0 ∧
    (scanModels (m :: rest) w).2.svc.health.isHealthy = true ∧
    (scanModels (m :: rest) w).2.probes = w.probes.tail := by
  have htick := tick_svc w
  have hallow := @checkRateLimit_allowed (tick w).1 (tick w).2.svc.rate
    (by rw [htick]; exact hcount)
  have hhead : ((tick w).2.probes).headD .bad = .ok := by
    rw [tick_probes]; exact hprobe
  simp only [scanModels, Bool.not_eq_true]
  rw [hallow.1]
  simp only [Bool.not_true, Bool.false_eq_true, if_false]
  rw [show (popProbe { (tick w).2 with svc := { (tick w).2.svc with
        rate := (checkRateLimit (tick w).1 (tick w).2.svc.rate).2 } }).1
      = .ok from hhead]
  refine ⟨rfl, rfl, rfl, rfl, rfl, ?_⟩
  simp [popProbe, tick_probes]

/-- A probe that throws a rate-limit error aborts the scan: the previously
cached identifier is returned, the candidate is not blacklisted (working
model and health untouched), and only this one probe was consumed. -/
theorem scanModels_head_rate (m : String) (rest : List String) (w : World)
    (hcount : w.svc.rate.requestCount < 5)
    (hprobe : w.probes.headD .bad = .rate) :
    (scanModels (m :: rest) w).1 = w.svc.workingModel ∧
    (scanModels (m :: rest) w).2.svc.workingModel = w.svc.workingModel ∧
    (scanModels (m :: rest) w).2.svc.health = w.svc.health ∧
    (scanModels (m :: rest) w).2.probes = w.probes.tail := by
  have htick := tick_svc w
  have hallow := @checkRateLimit_allowed (tick w).1 (tick w).2.svc.rate
    (by rw [htick]; exact hcount)
  have hhead : ((tick w).2.probes).headD .bad = .rate := by
    rw [tick_probes]; exact hprobe
  simp only [scanModels, Bool.not_eq_true]
  rw [hallow.1]
  simp only [Bool.not_true, Bool.false_eq_true, if_false]
  rw [show (popProbe { (tick w).2 with svc := { (tick w).2.svc with
        rate := (checkRateLimit (tick w).1 (tick w).2.svc.rate).2 } }).1
      = .rate from hhead]
  refine ⟨by simp [popProbe, htick], by simp [popProbe, htick],
    by simp [popProbe, htick], by simp [popProbe, tick_probes]⟩

/-- A forced discovery skips the cached-model, attempt-budget and
rate-limit pre-checks and goes straight to the candidate scan with the
attempt counter bumped. -/
theorem discoverForce_to_scan (now : Nat) (w : World) :
    discoverWorkingModel true now w = scanModels MODEL_NAMES
      { w with svc := { w.svc with
          modelDiscoveryAttempts := w.svc.modelDiscoveryAttempts + 1,
          lastModelDiscoveryTime := now } } := by
  simp [discoverWorkingModel]

/-- C9: in a (forced) discovery pass with a fresh rate window, (a) the
first candidate whose probe succeeds is cached as the working model, the
discovery failure streak resets, the manager is marked healthy, and the
scan stops there — only the probes up to and including the winner are
consumed; (b) a probe failing with a rate-limit signal aborts the whole
pass, returning the previously cached identifier (possibly none) without
blacklisting the candidate (working model and health untouched); (c)
exhausting all candidates without a success clears the cached identifier,
marks the manager unhealthy and increments the consecutive-failure
counter. -/
theorem discoverWorkingModel_behavior :
    (∀ (j : Nat) (m : String) (rest : List ProbeOutcome) (now : Nat)
       (w : World),
       MODEL_NAMES[j]? = some m →
       w.svc.rate.requestCount = 0 →
       w.probes = List.replicate j .bad ++ .ok :: rest →
       (discoverWorkingModel true now w).1 = some m ∧
       (discoverWorkingModel true now w).2.svc.workingModel = some m ∧
       (discoverWorkingModel true now w).2.svc.modelDiscoveryAttempts = 0 ∧
       (discoverWorkingModel true now w).2.svc.health.consecutiveFailures = 0 ∧
       (discoverWorkingModel true now w).2.svc.health.isHealthy = true ∧
       (discoverWorkingModel true now w).2.probes = rest) ∧
    (∀ (j : Nat) (rest : List ProbeOutcome) (now : Nat) (w : World),
       j < MODEL_NAMES.length →
       w.svc.rate.requestCount = 0 →
       w.probes = List.replicate j .bad ++ .rate :: rest →
       (discoverWorkingModel true now w).1 = w.svc.workingModel ∧
       (discoverWorkingModel true now w).2.svc.workingModel =
         w.svc.workingModel ∧
       (discoverWorkingModel true now w).2.svc.health = w.svc.health ∧
       (discoverWorkingModel true now w).2.probes = rest) ∧
    (∀ (now : Nat) (w : World),
       w.svc.rate.requestCount = 0 →
       w.probes = List.replicate MODEL_NAMES.length .bad →
       (discoverWorkingModel true now w).1 = none ∧
       (discoverWorkingModel true now w).2.svc.workingModel = none ∧
       (discoverWorkingModel true now w).2.svc.health.isHealthy = false ∧
       (discoverWorkingModel true now w).2.svc.health.consecutiveFailures =
         w.svc.health.consecutiveFailures + 1) := by
  refine ⟨?_, ?_, ?_⟩
  · intro j m rest now w hj hcount hp
    have hjlen : j < MODEL_NAMES.length := by
      by_contra hge
      rw [List.getElem?_eq_none (by omega)] at hj
      exact absurd hj (by simp)
    have hj4 : j < 4 := by
      rw [show MODEL_NAMES.length = 4 from rfl] at hjlen
      exact hjlen
    rw [discoverForce_to_scan]
    set w0 : World := { w with svc := { w.svc with
      modelDiscoveryAttempts := w.svc.modelDiscoveryAttempts + 1,
      lastModelDiscoveryTime := now } } with hw0
    have hc0 : w0.svc.rate.requestCount = 0 := by simp [hw0, hcount]
    rcases scanModels_skip_bads j MODEL_NAMES w0 (.ok :: rest)
      (Nat.le_of_lt hjlen) (by rw [hc0]; omega) (by simp [hw0, hp])
      with ⟨w', h1, h2, h3, h4, h5, h6⟩
    have hdrop : MODEL_NAMES.drop j = m :: MODEL_NAMES.drop (j + 1) := by
      rw [List.drop_eq_getElem_cons hjlen]
      have hg : MODEL_NAMES[j] = m := by
        have hgg := List.getElem?_eq_getElem hjlen
        rw [hj] at hgg
        exact (Option.some.injEq _ _).mp hgg.symm
      rw [hg]
    rw [h1, hdrop]
    have hcount2 : w'.svc.rate.requestCount < 5 := by
      rw [hc0] at h6
      omega
    have hhead : w'.probes.headD .bad = .ok := by rw [h2]; rfl
    rcases scanModels_head_ok m _ w' hcount2 hhead with
      ⟨g1, g2, g3, g4, g5, g6⟩
    refine ⟨g1, g2, g3, g4, g5, ?_⟩
    rw [g6, h2]
    rfl
  · intro j rest now w hjlen hcount hp
    have hj4 : j < 4 := by
      rw [show MODEL_NAMES.length = 4 from rfl] at hjlen
      exact hjlen
    rw [discoverForce_to_scan]
    set w0 : World := { w with svc := { w.svc with
      modelDiscoveryAttempts := w.svc.modelDiscoveryAttempts + 1,
      lastModelDiscoveryTime := now } } with hw0
    have hc0 : w0.svc.rate.requestCount = 0 := by simp [hw0, hcount]
    rcases scanModels_skip_bads j MODEL_NAMES w0 (.rate :: rest)
      (Nat.le_of_lt hjlen) (by rw [hc0]; omega) (by simp [hw0, hp])
      with ⟨w', h1, h2, h3, h4, h5, h6⟩
    have hdrop : ∃ m tail, MODEL_NAMES.drop j = m :: tail := by
      rw [List.drop_eq_getElem_cons hjlen]
      exact ⟨_, _, rfl⟩
    rcases hdrop with ⟨m, tail, hdrop⟩
    rw [h1, hdrop]
    have hcount2 : w'.svc.rate.requestCount < 5 := by
      rw [hc0] at h6
      omega
    have hhead : w'.probes.headD .bad = .rate := by rw [h2]; rfl
    rcases scanModels_head_rate m tail w' hcount2 hhead with ⟨g1, g2, g3, g4⟩
    have hmodel0 : w0.svc.workingModel = w.svc.workingModel := by
      simp [hw0]
    have hhealth0 : w0.svc.health = w.svc.health := by simp [hw0]
    refine ⟨by rw [g1, h3, hmodel0], by rw [g2, h3, hmodel0],
      by rw [g3, h4, hhealth0], ?_⟩
    rw [g4, h2]
    rfl
  · intro now w hcount hp
    rw [discoverForce_to_scan]
    set w0 : World := { w with svc := { w.svc with
      modelDiscoveryAttempts := w.svc.modelDiscoveryAttempts + 1,
      lastModelDiscoveryTime := now } } with hw0
    have hc0 : w0.svc.rate.requestCount = 0 := by simp [hw0, hcount]
    rcases scanModels_skip_bads MODEL_NAMES.length MODEL_NAMES w0 []
      (Nat.le_refl _) (by rw [hc0]; decide) (by simp [hw0, hp])
      with ⟨w', h1, h2, h3, h4, h5, h6⟩
    rw [h1, List.drop_length]
    have hhealth0 : w0.svc.health = w.svc.health := by simp [hw0]
    refine ⟨rfl, rfl, rfl, ?_⟩
    show w'.svc.health.consecutiveFailures + 1 =
      w.svc.health.consecutiveFailures + 1
    rw [h4, hhealth0]

/-- Probe oracle: first candidate fails, second succeeds, a further
outcome is left over. -/
def c9OkWorld : World := { baseWorld with probes := [.bad, .ok, .rate] }

/-- Probe oracle: the first candidate's probe throws a rate-limit error. -/
def c9RateWorld : World := { baseWorld with probes := [.rate] }

/-- Probe oracle: all four candidates fail. -/
def c9ExhaustWorld : World :=
  { baseWorld with probes := [.bad, .bad, .bad, .bad] }

/-- Witness for C9 at concrete worlds: a success at the second candidate
wins and leaves the third probe outcome unconsumed; a rate-limit abort at
the first candidate returns the cached identifier untouched; four failures
exhaust the list and flip the health state. -/
theorem discoverWorkingModel_behavior_witness :
    (MODEL_NAMES[1]? = some "gemini-1.5-flash" ∧
     c9OkWorld.probes = List.replicate 1 .bad ++ .ok :: [.rate] ∧
     ((discoverWorkingModel true 7 c9OkWorld).1 = some "gemini-1.5-flash" ∧
      (discoverWorkingModel true 7 c9OkWorld).2.svc.workingModel =
        some "gemini-1.5-flash" ∧
      (discoverWorkingModel true 7 c9OkWorld).2.svc.modelDiscoveryAttempts = 0 ∧
      (discoverWorkingModel true 7
        c9OkWorld).2.svc.health.consecutiveFailures = 0 ∧
      (discoverWorkingModel true 7 c9OkWorld).2.svc.health.isHealthy = true ∧
      (discoverWorkingModel true 7 c9OkWorld).2.probes = [.rate])) ∧
    ((discoverWorkingModel true 7 c9RateWorld).1 =
       c9RateWorld.svc.workingModel ∧
     (discoverWorkingModel true 7 c9RateWorld).2.svc.workingModel =
       c9RateWorld.svc.workingModel ∧
     (discoverWorkingModel true 7 c9RateWorld).2.svc.health =
       c9RateWorld.svc.health ∧
     (discoverWorkingModel true 7 c9RateWorld).2.probes = []) ∧
    ((discoverWorkingModel true 7 c9ExhaustWorld).1 = none ∧
     (discoverWorkingModel true 7 c9ExhaustWorld).2.svc.workingModel = none ∧
     (discoverWorkingModel true 7 c9ExhaustWorld).2.svc.health.isHealthy =
       false ∧
     (discoverWorkingModel true 7
       c9ExhaustWorld).2.svc.health.consecutiveFailures =
       c9ExhaustWorld.svc.health.consecutiveFailures + 1) :=
  ⟨⟨by decide, by decide,
    discoverWorkingModel_behavior.1 1 "gemini-1.5-flash" [.rate] 7 c9OkWorld
      (by decide) (by decide) (by decide)⟩,
   discoverWorkingModel_behavior.2.1 0 [] 7 c9RateWorld
     (by decide) (by decide) (by decide),
   discoverWorkingModel_behavior.2.2 7 c9ExhaustWorld
     (by decide) (by decide)⟩

/-! ## C10: chunk-batch results, sources and cache writes -/

/-- The per-item loop of a parsed chunk batch emits exactly one result per
item, and every result carries source `ai` with a `none` confidence. -/
theorem chunkBatchLoop_results (now : Nat) (entries : List (Nat × String)) :
    ∀ (chunk : List TaggedTask) (i : Nat) (cache : Cache),
      (chunkBatchLoop now entries chunk i cache).1.length = chunk.length ∧
      ∀ r ∈ (chunkBatchLoop now entries chunk i cache).1,
        r.result.source = "ai" ∧ r.result.confidence = none := by
  intro chunk
  induction chunk with
  | nil =>
      intro i cache
      exact ⟨rfl, by intro r hr; cases hr⟩
  | cons item rest ih =>
      intro i cache
      simp only [chunkBatchLoop]
      constructor
      · simp [(ih (i + 1) _).1]
      · intro r hr
        rcases List.mem_cons.mp hr with h | h
        · subst h; exact ⟨rfl, rfl⟩
        · exact (ih (i + 1) _).2 r h

/-- The per-item loop never disturbs a fresh (`timestamp = now`,
`confidence = none`) cache entry: later writes in the same pass can only
replace it with another fresh entry. -/
theorem chunkBatchLoop_cache_mono (now : Nat) (entries : List (Nat × String)) :
    ∀ (chunk : List TaggedTask) (i : Nat) (cache : Cache) (k : String)
      (e : CacheEntry),
      cacheGet cache k = some e → e.timestamp = now → e.confidence = none →
      ∃ e', cacheGet (chunkBatchLoop now entries chunk i cache).2 k = some e' ∧
        e'.timestamp = now ∧ e'.confidence = none := by
  intro chunk
  induction chunk with
  | nil =>
      intro i cache k e h ht hc
      exact ⟨e, h, ht, hc⟩
  | cons item rest ih =>
      intro i cache k e h ht hc
      cases hkey : generateCacheKey (item.task.notes.getD "") with
      | none =>
          simp only [chunkBatchLoop, hkey]
          exact ih (i + 1) cache k e h ht hc
      | some k' =>
          simp only [chunkBatchLoop, hkey]
          by_cases hkk : k = k'
          · subst hkk
            exact ih (i + 1) _ k _
              (by rw [cacheWriteBatch, cacheGet_cacheSet, if_pos rfl]) rfl rfl
          · exact ih (i + 1) _ k e
              (by rw [cacheWriteBatch, cacheGet_cacheSet, if_neg hkk]; exact h)
              ht hc

/-- After the per-item loop of a parsed chunk batch, every item whose
notes are non-empty sits in the cache under its content fingerprint with a
fresh timestamp. -/
theorem chunkBatchLoop_cache_writes (now : Nat) (entries : List (Nat × String)) :
    ∀ (chunk : List TaggedTask) (i : Nat) (cache : Cache),
      ∀ item ∈ chunk, item.task.notes.getD "" ≠ "" →
      ∃ e, cacheGet (chunkBatchLoop now entries chunk i cache).2
          (trimStr (toLowerStr (item.task.notes.getD ""))) = some e ∧
        e.timestamp = now ∧ e.confidence = none := by
  intro chunk
  induction chunk with
  | nil =>
      intro i cache item hmem
      cases hmem
  | cons head rest ih =>
      intro i cache item hmem hnz
      rcases List.mem_cons.mp hmem with h | h
      · subst h
        have hkey : generateCacheKey (item.task.notes.getD "") =
            some (trimStr (toLowerStr (item.task.notes.getD ""))) := by
          unfold generateCacheKey
          rw [if_neg hnz]
        simp only [chunkBatchLoop, hkey]
        exact chunkBatchLoop_cache_mono now entries rest (i + 1) _ _ _
          (by rw [cacheWriteBatch, cacheGet_cacheSet, if_pos rfl]) rfl rfl
      · cases hkey : generateCacheKey (head.task.notes.getD "") with
        | none =>
            simp only [chunkBatchLoop, hkey]
            exact ih (i + 1) cache item h hnz
        | some k' =>
            simp only [chunkBatchLoop, hkey]
            exact ih (i + 1) _ item h hnz

/-- A still-valid cache entry under a task's content fingerprint turns a
later `separateCachedTasks` pass over that task into a cache hit with
source `ai`. -/
theorem sep_singleton_hit (nowL : Nat) (cache : Cache) (t : Task)
    (e : CacheEntry) (hnz : t.notes.getD "" ≠ "")
    (hget : cacheGet cache (trimStr (toLowerStr (t.notes.getD ""))) = some e)
    (hts : nowL - e.timestamp < CACHE_TTL) :
    separateCachedTasks nowL cache [t] =
      ([{ index := 0,
          result := { category := e.category, source := "ai",
                      confidence := e.confidence } }], []) := by
  have hkey : generateCacheKey (t.notes.getD "") =
      some (trimStr (toLowerStr (t.notes.getD ""))) := by
    unfold generateCacheKey
    rw [if_neg hnz]
  have hv : isCacheValid (some e) nowL = true := by
    simp [isCacheValid, hts]
  simp only [separateCachedTasks, sepAux, hkey, hget, hv, if_true]

/-- The chunk used in the C10 counterexample: an item with empty notes
followed by an ordinary one. -/
def c10Chunk : List TaggedTask :=
  [{ index := 0,
     task := { firstName := none, phone := none, notes := some "" } },
   { index := 1,
     task := { firstName := none, phone := none,
               notes := some "Printer is broken again" } }]

/-- Batch oracle for the C10 counterexample: the response names only the
second ordinal, so the first item falls back to General. -/
def c10World : World :=
  { baseWorld with batches := [.entries [(2, "Support")]] }

/-- C10 (counterexample to the claim as stated): after a successfully
parsed chunk batch both items do come back with source `ai` — including
the empty-notes item that fell back to General — but the empty-notes item
is NOT written to the cache (its fingerprint is null), so the final cache
holds a single entry and a later classification of that same empty content
is not served from the cache: it returns source `default`. -/
theorem categorizeChunkBatch_cache_counterexample :
    (categorizeChunkBatch c10Chunk 1000 c10World).1 =
      .ok [{ index := 0,
             result := { category := "General", source := "ai",
                         confidence := none } },
           { index := 1,
             result := { category := "Support", source := "ai",
                         confidence := none } }] ∧
    generateCacheKey "" = none ∧
    (categorizeChunkBatch c10Chunk 1000 c10World).2.svc.cache.length = 1 ∧
    (categorizeTask "" true true 2000
        (categorizeChunkBatch c10Chunk 1000 c10World).2).1 =
      .ok { category := "General", source := "default", confidence := none } := by
  refine ⟨by decide, by decide, by decide, by decide⟩

/-- C10 (amended): for every chunk whose batch call returns a successfully
parsed response, every item — including ordinals absent from the response,
which default to General — is returned with source `ai` (one result per
item); every item whose notes are NON-EMPTY is additionally written to the
cache under its content fingerprint with a fresh timestamp, so a later
`separateCachedTasks` pass over the same task within the TTL is served as
a cache hit with source `ai`.  (Items with empty notes receive source `ai`
but are not cached: their fingerprint is null.) -/
theorem categorizeChunkBatch_ai_and_cache (chunk : List TaggedTask)
    (now : Nat) (w : World) (res : List TaggedResult)
    (hrun : (categorizeChunkBatch chunk now w).1 = .ok res) :
    res.length = chunk.length ∧
    (∀ r ∈ res, r.result.source = "ai" ∧ r.result.confidence = none) ∧
    (∀ item ∈ chunk, item.task.notes.getD "" ≠ "" →
      ∃ e, cacheGet (categorizeChunkBatch chunk now w).2.svc.cache
          (trimStr (toLowerStr (item.task.notes.getD ""))) = some e ∧
        e.timestamp = now ∧ e.confidence = none) ∧
    (∀ item ∈ chunk, ∀ nowL, item.task.notes.getD "" ≠ "" →
      nowL - now < CACHE_TTL →
      ∃ cat, separateCachedTasks nowL
          (categorizeChunkBatch chunk now w).2.svc.cache [item.task] =
        ([{ index := 0,
            result := { category := cat, source := "ai",
                        confidence := none } }], [])) := by
  by_cases hch : chunk.isEmpty
  · have hc : chunk = [] := by
      cases chunk with
      | nil => rfl
      | cons a l => simp [List.isEmpty] at hch
    subst hc
    have hres : res = [] := by
      simp only [categorizeChunkBatch, List.isEmpty_nil, if_true] at hrun
      cases hrun
      rfl
    subst hres
    refine ⟨rfl, ?_, ?_, ?_⟩
    · intro r hr; cases hr
    · intro item hmem; cases hmem
    · intro item hmem; cases hmem
  · have hch' : chunk.isEmpty = false := by
      cases h : chunk.isEmpty
      · rfl
      · exact absurd h hch
    simp only [categorizeChunkBatch, hch', Bool.false_eq_true, if_false] at hrun ⊢
    cases hgm : (getWorkingModel w).1 with
    | none =>
        rw [hgm] at hrun
        dsimp only at hrun
        cases hrun
    | some m =>
        rw [hgm] at hrun
        dsimp only at hrun ⊢
        by_cases hck : (checkRateLimit now (getWorkingModel w).2.svc.rate).1
        · rw [if_neg (by simp [hck])] at hrun ⊢
          cases hb : (popBatch _).1 with
          | rate =>
              rw [hb] at hrun
              dsimp only at hrun
              cases hrun
          | otherFail =>
              rw [hb] at hrun
              dsimp only at hrun
              cases hrun
          | entries l =>
              rw [hb] at hrun
              dsimp only at hrun ⊢
              by_cases hl : l.isEmpty
              · rw [if_pos hl] at hrun
                cases hrun
              · rw [if_neg hl] at hrun ⊢
                dsimp only at hrun ⊢
                injection hrun with hres
                refine ⟨?_, ?_, ?_, ?_⟩
                · rw [← hres]
                  exact (chunkBatchLoop_results now l chunk 0 _).1
                · rw [← hres]
                  exact (chunkBatchLoop_results now l chunk 0 _).2
                · intro item hmem hnz
                  exact chunkBatchLoop_cache_writes now l chunk 0 _ item
                    hmem hnz
                · intro item hmem nowL hnz hlt
                  obtain ⟨e, hget, ht, hcf⟩ :=
                    chunkBatchLoop_cache_writes now l chunk 0 _ item hmem hnz
                  refine ⟨e.category, ?_⟩
                  have hsep := sep_singleton_hit nowL _ item.task e hnz hget
                    (by rw [ht]; exact hlt)
                  rw [hcf] at hsep
                  exact hsep
        · rw [if_pos (by simp [hck])] at hrun
          cases hrun

/-- A two-item chunk with ordinary non-empty notes, for the C10 witness. -/
def c10wChunk : List TaggedTask :=
  [{ index := 0,
     task := { firstName := none, phone := none,
               notes := some "Need help with my invoice" } },
   { index := 1,
     task := { firstName := none, phone := none,
               notes := some "Wants pricing for the new plan" } }]

/-- Batch oracle for the C10 witness: both ordinals answered. -/
def c10wWorld : World :=
  { baseWorld with batches := [.entries [(1, "Support"), (2, "Sales")]] }

/-- Witness for the amended C10 on a concrete run: both items come back
with source `ai`, the first item's fingerprint holds a fresh Support entry,
and a later separation pass over that same task within the TTL is a cache
hit with source `ai`. -/
theorem categorizeChunkBatch_ai_and_cache_witness :
    ((categorizeChunkBatch c10wChunk 1000 c10wWorld).1 =
      .ok [{ index := 0,
             result := { category := "Support", source := "ai",
                         confidence := none } },
           { index := 1,
             result := { category := "Sales", source := "ai",
                         confidence := none } }]) ∧
    ([({ index := 0,
         result := { category := "Support", source := "ai",
                     confidence := none } } : TaggedResult),
      { index := 1,
        result := { category := "Sales", source := "ai",
                    confidence := none } }].length = c10wChunk.length) ∧
    cacheGet (categorizeChunkBatch c10wChunk 1000 c10wWorld).2.svc.cache
        (trimStr (toLowerStr "Need help with my invoice")) =
      some { category := "Support", confidence := none, timestamp := 1000 } ∧
    separateCachedTasks 2000
        (categorizeChunkBatch c10wChunk 1000 c10wWorld).2.svc.cache
        [{ firstName := none, phone := none,
           notes := some "Need help with my invoice" }] =
      ([{ index := 0,
          result := { category := "Support", source := "ai",
                      confidence := none } }], []) :=
  ⟨by decide,
   (categorizeChunkBatch_ai_and_cache c10wChunk 1000 c10wWorld _
     (by decide)).1,
   by decide, by decide⟩

/-! ## C8: invalid CSV headers abort the pipeline before any row -/

/-- C8: when a required header is missing (case-insensitively), the
pipeline persists no tasks, records a failed Upload Record with the
descriptive header message, deletes the uploaded file, drives the progress
record to status `failed`, and never touches the classifier (the world is
returned unchanged — the check fires before any row is accepted). -/
theorem processUpload_invalid_headers (csv : CsvFile) (aiEnabled : Bool)
    (agents : List Nat) (p0 : Progress) (w : World)
    (h : headersValid csv = false) :
    (processUpload csv aiEnabled agents p0 w).inserted = [] ∧
    (processUpload csv aiEnabled agents p0 w).upload =
      some { status := "failed", errorMessage := some invalidCsvMsg,
             rowCount := 0, tasksCreated := 0 } ∧
    (processUpload csv aiEnabled agents p0 w).fileDeleted = true ∧
    ((processUpload csv aiEnabled agents p0 w).trace.getLastD p0).status =
      "failed" ∧
    ((processUpload csv aiEnabled agents p0 w).trace.getLastD p0).error =
      some invalidCsvMsg ∧
    (processUpload csv aiEnabled agents p0 w).world = w := by
  simp only [processUpload, h, Bool.not_false]
  rw [if_pos trivial]
  exact ⟨rfl, rfl, rfl, rfl, rfl, rfl⟩

/-- A CSV whose header line lacks the required `Notes` column, with a data
row present. -/
def c8Csv : CsvFile :=
  { headers := ["FirstName", "Phone"],
    rows := [[("FirstName", "Alex"), ("Phone", "555")]] }

/-- Witness for C8 on a concrete file with a missing `Notes` header. -/
theorem processUpload_invalid_headers_witness :
    headersValid c8Csv = false ∧
    (processUpload c8Csv true [1, 2] (initializeProgress 1) baseWorld).inserted
      = [] ∧
    (processUpload c8Csv true [1, 2] (initializeProgress 1) baseWorld).upload =
      some { status := "failed", errorMessage := some invalidCsvMsg,
             rowCount := 0, tasksCreated := 0 } ∧
    (processUpload c8Csv true [1, 2] (initializeProgress 1)
      baseWorld).fileDeleted = true ∧
    ((processUpload c8Csv true [1, 2] (initializeProgress 1)
        baseWorld).trace.getLastD (initializeProgress 1)).status = "failed" ∧
    ((processUpload c8Csv true [1, 2] (initializeProgress 1)
        baseWorld).trace.getLastD (initializeProgress 1)).error =
      some invalidCsvMsg ∧
    (processUpload c8Csv true [1, 2] (initializeProgress 1) baseWorld).world =
      baseWorld :=
  ⟨by decide,
   processUpload_invalid_headers c8Csv true [1, 2] (initializeProgress 1)
     baseWorld (by decide)⟩

/-! ## C7: round-robin agent assignment and the empty-roster rejection -/

/-- Position `i` of the distributed task list carries agent
`roster[i mod roster.length]`. -/
theorem distributeTasks_agent (tasks : List Task) (results : List CatResult)
    (agents : List Nat) (now : Nat) (i : Nat) (hi : i < tasks.length) :
    ((distributeTasks tasks results agents now).get? i).map
      (fun t => t.agent) = some ((agents.get? (i % agents.length)).getD 0) := by
  have hi' : i < (distributeTasks tasks results agents now).length := by
    simp only [distributeTasks, List.length_mapIdx]
    exact hi
  rw [List.get?_eq_get hi', Option.map_some']
  have hg := List.get_mapIdx tasks (fun i t =>
    ({ firstName := t.firstName, phone := t.phone, notes := t.notes,
       category := ((results.get? i).map (fun r => r.category)).getD "General",
       categorySource :=
         ((results.get? i).map (fun r => r.source)).getD "default",
       categorizedAt :=
         if ((results.get? i).map (fun r => r.source)).getD "default" = "ai"
         then some now else none,
       categoryConfidence := (results.get? i).bind (fun r => r.confidence),
       agent := (agents.get? (i % agents.length)).getD 0 } : DistTask)) i hi
  rw [show (distributeTasks tasks results agents now).get ⟨i, hi'⟩ =
      (tasks.mapIdx _).get ⟨i, _⟩ from rfl, hg]

/-- A seven-row CSV with the full header set, for the C7 scenario. -/
def c7Csv : CsvFile :=
  { headers := ["FirstName", "Phone", "Notes"],
    rows := List.replicate 7
      [("FirstName", "Alex"), ("Phone", "555"), ("Notes", "Call back")] }

/-- C7: an empty agent roster is rejected up front (no progress record, no
row processing); on the success path, task `i` (in CSV row order) is
assigned agent `roster[i mod roster.length]`; and the concrete
3-agent/7-row run with the classifier disabled persists 7 tasks with
assignment pattern `[a, b, c, a, b, c, a]`, all `General`/`default`,
ending `completed` with `defaultTasks = 7`. -/
theorem uploadCSV_round_robin :
    (∀ (csv : CsvFile) (fileSize : Nat) (aiEnabled : Bool) (w : World),
      uploadCSV true [] csv fileSize aiEnabled w = .noAgents) ∧
    (∀ (csv : CsvFile) (aiEnabled : Bool) (agents : List Nat) (p0 : Progress)
       (w : World) (i : Nat),
      headersValid csv = true → i < csv.rows.length →
      ((processUpload csv aiEnabled agents p0 w).inserted.get? i).map
        (fun t => t.agent) =
        some ((agents.get? (i % agents.length)).getD 0)) ∧
    ((processUpload c7Csv false [101, 102, 103] (initializeProgress 7)
        baseWorld).inserted.map (fun t => t.agent) =
      [101, 102, 103, 101, 102, 103, 101]) ∧
    ((processUpload c7Csv false [101, 102, 103] (initializeProgress 7)
        baseWorld).inserted.map (fun t => (t.category, t.categorySource)) =
      List.replicate 7 ("General", "default")) ∧
    ((processUpload c7Csv false [101, 102, 103] (initializeProgress 7)
        baseWorld).upload =
      some { status := "success", errorMessage := none, rowCount := 7,
             tasksCreated := 7 }) ∧
    (((processUpload c7Csv false [101, 102, 103] (initializeProgress 7)
        baseWorld).trace.getLastD (initializeProgress 7)).status =
      "completed") ∧
    (((processUpload c7Csv false [101, 102, 103] (initializeProgress 7)
        baseWorld).trace.getLastD (initializeProgress 7)).defaultTasks = 7) := by
  refine ⟨?_, ?_, by decide, by decide, by decide, by decide, by decide⟩
  · intro csv fileSize aiEnabled w
    simp [uploadCSV]
  · intro csv aiEnabled agents p0 w i hh hi
    simp only [processUpload, hh, Bool.not_true, Bool.false_eq_true, if_false]
    exact distributeTasks_agent _ _ agents _ i (by simpa using hi)

/-- Witness for C7: the empty-roster rejection and the round-robin
position formula applied on the concrete 3-agent, 7-row run at row 3. -/
theorem uploadCSV_round_robin_witness :
    uploadCSV true [] c7Csv 700 false baseWorld = .noAgents ∧
    (headersValid c7Csv = true ∧ 3 < c7Csv.rows.length) ∧
    ((processUpload c7Csv false [101, 102, 103] (initializeProgress 7)
        baseWorld).inserted.get? 3).map (fun t => t.agent) =
      some (([101, 102, 103].get? (3 % [101, 102, 103].length)).getD 0) :=
  ⟨uploadCSV_round_robin.1 c7Csv 700 false baseWorld,
   ⟨by decide, by decide⟩,
   uploadCSV_round_robin.2.1 c7Csv false [101, 102, 103]
     (initializeProgress 7) baseWorld 3 (by decide) (by decide)⟩

/-! ## C2: rate-limit exhaustion defaults every remaining task -/

/-- C2: (a) if the rate budget is exhausted before a chunk, the current
chunk and all subsequent chunks default (`General`/`default`/null), the
flag comes back true and the loop stops with no chunk call made; (b) if
the chunk's batch call fails rate-like, the same happens with the world
exactly as that failing call left it; (c) `categorizeTasksBatch` returns
the loop's flag as `rateLimitHit` whenever uncached tasks exist. -/
theorem processChunks_rate_limit :
    (∀ (aiEnabled : Bool) (cachedCount totalTasks : Nat)
       (chunk : List TaggedTask) (rest : List (List TaggedTask))
       (acc : List TaggedResult) (w0 : World),
      (checkRateLimit (tick w0).1 (tick w0).2.svc.rate).1 = false →
      (processChunks aiEnabled cachedCount totalTasks (chunk :: rest) acc
          w0).1 =
        acc ++ ((chunk :: rest).flatten).map (fun item =>
          { index := item.index, result := defaultResult }) ∧
      (processChunks aiEnabled cachedCount totalTasks (chunk :: rest) acc
          w0).2.1 = true ∧
      (processChunks aiEnabled cachedCount totalTasks (chunk :: rest) acc
          w0).2.2.1 =
        { (tick w0).2 with svc := { (tick w0).2.svc with
            rate := (checkRateLimit (tick w0).1 (tick w0).2.svc.rate).2 } }) ∧
    (∀ (aiEnabled : Bool) (cachedCount totalTasks : Nat)
       (chunk : List TaggedTask) (rest : List (List TaggedTask))
       (acc : List TaggedResult) (w0 : World),
      (checkRateLimit (tick w0).1 (tick w0).2.svc.rate).1 = true →
      (categorizeChunkBatch chunk (tick w0).1
          { (tick w0).2 with svc := { (tick w0).2.svc with
              rate := (checkRateLimit (tick w0).1
                (tick w0).2.svc.rate).2 } }).1 = .error .rateLike →
      (processChunks aiEnabled cachedCount totalTasks (chunk :: rest) acc
          w0).1 =
        acc ++ ((chunk :: rest).flatten).map (fun item =>
          { index := item.index, result := defaultResult }) ∧
      (processChunks aiEnabled cachedCount totalTasks (chunk :: rest) acc
          w0).2.1 = true ∧
      (processChunks aiEnabled cachedCount totalTasks (chunk :: rest) acc
          w0).2.2.1 =
        (categorizeChunkBatch chunk (tick w0).1
          { (tick w0).2 with svc := { (tick w0).2.svc with
              rate := (checkRateLimit (tick w0).1
                (tick w0).2.svc.rate).2 } }).2) ∧
    (∀ (tasks : List Task) (w : World),
      tasks.isEmpty = false →
      (separateCachedTasks (tick w).1 (tick w).2.svc.cache tasks).2.isEmpty =
        false →
      (categorizeTasksBatch tasks true w).1.rateLimitHit =
        (processChunks true
          (separateCachedTasks (tick w).1 (tick w).2.svc.cache tasks).1.length
          tasks.length
          (createOptimalChunks
            (separateCachedTasks (tick w).1 (tick w).2.svc.cache tasks).2 {})
          []
          { (tick w).2 with svc := { (tick w).2.svc with
              health := { (tick w).2.svc.health with
                cacheHits := (tick w).2.svc.health.cacheHits +
                  (separateCachedTasks (tick w).1 (tick w).2.svc.cache
                    tasks).1.length } } }).2.1) := by
  refine ⟨?_, ?_, ?_⟩
  · intro aiEnabled cachedCount totalTasks chunk rest acc w0 hchk
    simp only [processChunks]
    rw [if_pos (by simp [hchk])]
    exact ⟨rfl, rfl, rfl⟩
  · intro aiEnabled cachedCount totalTasks chunk rest acc w0 hchk hrl
    simp only [processChunks]
    rw [if_neg (by simp [hchk])]
    rw [hrl]
    exact ⟨rfl, rfl, rfl⟩
  · intro tasks w h1 h2
    simp only [categorizeTasksBatch, h1, h2, Bool.not_true,
      Bool.false_eq_true, if_false]

/-- A world whose rate window is already exhausted at time zero. -/
def c2RateWorld : World :=
  { baseWorld with svc := { baseWorld.svc with
      rate := { requestCount := 5, rateLimitResetTime := 60000 } } }

/-- A world whose next chunk call answers with a 429. -/
def c2FailWorld : World :=
  { baseWorld with batches := [.rate] }

/-- Two single-item chunks for the C2 witness. -/
def c2Chunk0 : List TaggedTask :=
  [{ index := 0,
     task := { firstName := none, phone := none, notes := some "Hello" } }]

/-- The trailing chunk of the C2 witness. -/
def c2Chunk1 : List TaggedTask :=
  [{ index := 1,
     task := { firstName := none, phone := none, notes := some "World" } }]

/-- Witness for C2: a pre-exhausted budget defaults both chunks with the
flag set and no chunk call; a rate-like chunk failure does the same after
the one failing call; and the batch entry point hands the flag through on
a concrete uncached task list. -/
theorem processChunks_rate_limit_witness :
    ((checkRateLimit (tick c2RateWorld).1 (tick c2RateWorld).2.svc.rate).1 =
      false ∧
     (processChunks true 0 2 [c2Chunk0, c2Chunk1] [] c2RateWorld).1 =
       [] ++ (([c2Chunk0, c2Chunk1] : List (List TaggedTask)).flatten).map
         (fun item => { index := item.index, result := defaultResult }) ∧
     (processChunks true 0 2 [c2Chunk0, c2Chunk1] [] c2RateWorld).2.1 =
       true) ∧
    ((processChunks true 0 2 [c2Chunk0, c2Chunk1] [] c2FailWorld).1 =
       [] ++ (([c2Chunk0, c2Chunk1] : List (List TaggedTask)).flatten).map
         (fun item => { index := item.index, result := defaultResult }) ∧
     (processChunks true 0 2 [c2Chunk0, c2Chunk1] [] c2FailWorld).2.1 =
       true) ∧
    (categorizeTasksBatch
        [{ firstName := none, phone := none, notes := some "Hello" }] true
        c2RateWorld).1.rateLimitHit = true :=
  ⟨⟨by decide,
    ((processChunks_rate_limit.1 true 0 2 c2Chunk0 [c2Chunk1] []
      c2RateWorld (by decide)).1),
    ((processChunks_rate_limit.1 true 0 2 c2Chunk0 [c2Chunk1] []
      c2RateWorld (by decide)).2.1)⟩,
   ⟨((processChunks_rate_limit.2.1 true 0 2 c2Chunk0 [c2Chunk1] []
      c2FailWorld (by decide) (by decide)).1),
    ((processChunks_rate_limit.2.1 true 0 2 c2Chunk0 [c2Chunk1] []
      c2FailWorld (by decide) (by decide)).2.1)⟩,
   by
    rw [processChunks_rate_limit.2.2
      [{ firstName := none, phone := none, notes := some "Hello" }]
      c2RateWorld (by decide) (by decide)]
    decide⟩

/-! ## C1: result length and original-order correspondence -/

/-- The cache/uncached split tags each input position exactly once: the
tagged indices of the two output lists together are a permutation of the
input positions. -/
theorem sepAux_indices (now : Nat) (cache : Cache) :
    ∀ (ts : List Task) (i : Nat),
      ((sepAux now cache ts i).1.map (fun r => r.index) ++
       (sepAux now cache ts i).2.map (fun t => t.index)).Perm
        (List.range' i ts.length) := by
  intro ts
  induction ts with
  | nil => intro i; simp [sepAux]
  | cons t ts ih =>
      intro i
      cases hkey : generateCacheKey (t.notes.getD "") with
      | none =>
          simp only [sepAux, hkey, List.map_cons, List.length_cons,
            List.range'_succ]
          exact List.perm_middle.trans ((ih (i + 1)).cons i)
      | some k =>
          cases hget : cacheGet cache k with
          | none =>
              simp only [sepAux, hkey, hget, List.map_cons, List.length_cons,
                List.range'_succ]
              exact List.perm_middle.trans ((ih (i + 1)).cons i)
          | some item =>
              by_cases hv : isCacheValid (some item) now
              · simp only [sepAux, hkey, hget, if_pos hv, List.map_cons,
                  List.cons_append, List.length_cons, List.range'_succ]
                exact (ih (i + 1)).cons i
              · simp only [sepAux, hkey, hget, if_neg hv, List.map_cons,
                  List.length_cons, List.range'_succ]
                exact List.perm_middle.trans ((ih (i + 1)).cons i)

/-- `separateCachedTasks` covers the positions `0..n-1` exactly once
between cached results and uncached tasks. -/
theorem separateCachedTasks_indices (now : Nat) (cache : Cache)
    (tasks : List Task) :
    ((separateCachedTasks now cache tasks).1.map (fun r => r.index) ++
     (separateCachedTasks now cache tasks).2.map (fun t => t.index)).Perm
      (List.range tasks.length) := by
  rw [List.range_eq_range']
  exact sepAux_indices now cache tasks 0

/-- The per-item loop of a parsed chunk keeps the items' original tags in
order. -/
theorem chunkBatchLoop_indices (now : Nat) (entries : List (Nat × String)) :
    ∀ (chunk : List TaggedTask) (i : Nat) (cache : Cache),
      (chunkBatchLoop now entries chunk i cache).1.map (fun r => r.index) =
        chunk.map (fun t => t.index) := by
  intro chunk
  induction chunk with
  | nil => intro i cache; rfl
  | cons item rest ih =>
      intro i cache
      cases hkey : generateCacheKey (item.task.notes.getD "") with
      | none =>
          simp only [chunkBatchLoop, hkey, List.map_cons]
          rw [ih]
      | some k =>
          simp only [chunkBatchLoop, hkey, List.map_cons]
          rw [ih]

/-- A successful chunk batch call returns results tagged exactly with the
chunk's original positions, in chunk order. -/
theorem categorizeChunkBatch_ok_indices (chunk : List TaggedTask) (now : Nat)
    (w : World) (res : List TaggedResult)
    (hrun : (categorizeChunkBatch chunk now w).1 = .ok res) :
    res.map (fun r => r.index) = chunk.map (fun t => t.index) := by
  by_cases hch : chunk.isEmpty
  · have hc : chunk = [] := by
      cases chunk with
      | nil => rfl
      | cons a l => simp [List.isEmpty] at hch
    subst hc
    simp only [categorizeChunkBatch, List.isEmpty_nil, if_true] at hrun
    cases hrun
    rfl
  · have hch' : chunk.isEmpty = false := by
      cases h : chunk.isEmpty
      · rfl
      · exact absurd h hch
    simp only [categorizeChunkBatch, hch', Bool.false_eq_true, if_false]
      at hrun
    split at hrun
    · simp at hrun
    · split at hrun
      · simp at hrun
      · split at hrun
        · simp at hrun
        · simp at hrun
        · split at hrun
          · simp at hrun
          · dsimp only at hrun
            injection hrun with hres
            rw [← hres]
            exact chunkBatchLoop_indices now _ chunk 0 _

/-- The per-item fallback loop keeps the items' original tags in order. -/
theorem indivLoop_indices (aiEnabled : Bool) (total : Nat) :
    ∀ (chunk : List TaggedTask) (done : Nat) (w : World),
      (indivLoop aiEnabled total chunk done w).1.map (fun r => r.index) =
        chunk.map (fun t => t.index) := by
  intro chunk
  induction chunk with
  | nil => intro done w; rfl
  | cons item rest ih =>
      intro done w0
      cases hrun : (categorizeTask (item.task.notes.getD "") true aiEnabled
          (tick w0).1 (tick w0).2).1 with
      | ok r =>
          simp only [indivLoop, hrun, List.map_cons]
          rw [ih]
      | error e =>
          simp only [indivLoop, hrun, List.map_cons]
          rw [ih]

/-- The chunk loop of `categorizeTasksBatch` emits, after the accumulator,
exactly the original tags of the chunked items in order — whether a chunk
succeeded, fell back to per-item calls, or was defaulted by a rate stop. -/
theorem processChunks_indices (aiEnabled : Bool) (cachedCount totalTasks : Nat) :
    ∀ (chunks : List (List TaggedTask)) (acc : List TaggedResult) (w : World),
      (processChunks aiEnabled cachedCount totalTasks chunks acc w).1.map
          (fun r => r.index) =
        acc.map (fun r => r.index) ++ chunks.flatten.map (fun t => t.index) := by
  intro chunks
  induction chunks with
  | nil => intro acc w; simp [processChunks]
  | cons chunk rest ih =>
      intro acc w0
      simp only [processChunks]
      by_cases hck : (checkRateLimit (tick w0).1 (tick w0).2.svc.rate).1
      · rw [if_neg (by simp [hck])]
        cases hres : (categorizeChunkBatch chunk (tick w0).1 _).1 with
        | ok chunkResults =>
            simp only [hres]
            rw [ih]
            simp only [List.map_append, List.flatten_cons, List.append_assoc]
            rw [categorizeChunkBatch_ok_indices chunk (tick w0).1 _
              chunkResults hres]
        | error e =>
            cases e with
            | rateLike =>
                simp only [hres]
                simp [List.map_map, Function.comp_def]
            | otherErr =>
                simp only [hres]
                rw [ih]
                simp only [List.map_append, List.append_assoc,
                  List.flatten_cons]
                rw [categorizeChunkIndividually,
                  indivLoop_indices aiEnabled chunk.length chunk 0 _]
      · rw [if_pos (by simp [hck])]
        simp [List.map_map, Function.comp_def]

/-- `combineResults` always returns one entry per input position. -/
theorem combineResults_length (cached batch : List TaggedResult)
    (tasks : List Task) :
    (combineResults cached batch tasks).results.length = tasks.length := by
  simp [combineResults]

/-- `combineResults` rebuilds position `i` from the tagged-result map. -/
theorem combineResults_get (cached batch : List TaggedResult)
    (tasks : List Task) (i : Nat) (hi : i < tasks.length) :
    (combineResults cached batch tasks).results.get? i =
      some ((resultMapGet cached batch i).getD defaultResult) := by
  simp only [combineResults, List.get?_eq_getElem?, List.getElem?_map,
    List.getElem?_range hi, Option.map_some']

/-- On a list whose tags are distinct, `find?` by a member's tag returns
exactly that member. -/
theorem find?_index_unique :
    ∀ (l : List TaggedResult) (r : TaggedResult),
      (l.map (fun x => x.index)).Nodup → r ∈ l →
      l.find? (fun x => x.index = r.index) = some r := by
  intro l
  induction l with
  | nil => intro r _ hr; cases hr
  | cons a l ih =>
      intro r hnd hr
      by_cases ha : a.index = r.index
      · have haeq : a = r := by
          rcases List.mem_cons.mp hr with h | h
          · exact h.symm
          · exfalso
            have hmem : r.index ∈ l.map (fun x => x.index) :=
              List.mem_map.mpr ⟨r, h, rfl⟩
            exact (List.nodup_cons.mp hnd).1 (by simpa [ha] using hmem)
        rw [List.find?_cons]
        simp [ha, haeq]
      · have hr' : r ∈ l := by
          rcases List.mem_cons.mp hr with h | h
          · exact absurd (by rw [h]) ha
          · exact h
        rw [List.find?_cons]
        have hpa : (fun x => decide (x.index = r.index)) a = false := by
          simp [ha]
        simp only [hpa]
        exact ih r (List.nodup_cons.mp hnd).2 hr'

/-- When the tagged results cover each input position exactly once, the
merged array places every tagged result at its original position. -/
theorem combineResults_order (cached batch : List TaggedResult)
    (tasks : List Task)
    (hperm : ((cached ++ batch).map (fun r => r.index)).Perm
      (List.range tasks.length)) :
    ∀ r ∈ cached ++ batch,
      (combineResults cached batch tasks).results.get? r.index =
        some r.result := by
  intro r hr
  have hi : r.index < tasks.length := by
    have hm : r.index ∈ (cached ++ batch).map (fun x => x.index) :=
      List.mem_map.mpr ⟨r, hr, rfl⟩
    exact List.mem_range.mp (hperm.mem_iff.mp hm)
  rw [combineResults_get cached batch tasks r.index hi]
  have hnd : ((cached ++ batch).map (fun x => x.index)).Nodup :=
    hperm.nodup_iff.mpr (List.nodup_range tasks.length)
  have hndrev : ((cached ++ batch).reverse.map (fun x => x.index)).Nodup := by
    rw [List.map_reverse, List.nodup_reverse]
    exact hnd
  have hfind := find?_index_unique ((cached ++ batch).reverse) r hndrev
    (List.mem_reverse.mpr hr)
  unfold resultMapGet
  rw [hfind]
  rfl

/-- C1: (1) for every task list, feature flag and oracle world the batch
entry point returns exactly one result per input task; (2) the cache split
tags each input position exactly once; (3) the chunk loop emits results
tagged with the chunked items' original positions in order, whatever
happened to each chunk; (4) on the chunked path, every tagged intermediate
result lands at its original input position in the returned array. -/
theorem categorizeTasksBatch_length_order :
    (∀ (tasks : List Task) (aiEnabled : Bool) (w : World),
      (categorizeTasksBatch tasks aiEnabled w).1.results.length =
        tasks.length) ∧
    (∀ (now : Nat) (cache : Cache) (tasks : List Task),
      ((separateCachedTasks now cache tasks).1.map (fun r => r.index) ++
       (separateCachedTasks now cache tasks).2.map (fun t => t.index)).Perm
        (List.range tasks.length)) ∧
    (∀ (aiEnabled : Bool) (cachedCount totalTasks : Nat)
       (chunks : List (List TaggedTask)) (acc : List TaggedResult)
       (w : World),
      (processChunks aiEnabled cachedCount totalTasks chunks acc w).1.map
          (fun r => r.index) =
        acc.map (fun r => r.index) ++
          chunks.flatten.map (fun t => t.index)) ∧
    (∀ (tasks : List Task) (w : World) (r : TaggedResult),
      tasks.isEmpty = false →
      (separateCachedTasks (tick w).1 (tick w).2.svc.cache tasks).2.isEmpty =
        false →
      r ∈ (separateCachedTasks (tick w).1 (tick w).2.svc.cache tasks).1 ++
        (processChunks true
          (separateCachedTasks (tick w).1 (tick w).2.svc.cache
            tasks).1.length
          tasks.length
          (createOptimalChunks
            (separateCachedTasks (tick w).1 (tick w).2.svc.cache tasks).2 {})
          []
          { (tick w).2 with svc := { (tick w).2.svc with
              health := { (tick w).2.svc.health with
                cacheHits := (tick w).2.svc.health.cacheHits +
                  (separateCachedTasks (tick w).1 (tick w).2.svc.cache
                    tasks).1.length } } }).1 →
      (categorizeTasksBatch tasks true w).1.results.get? r.index =
        some r.result) := by
  refine ⟨?_, separateCachedTasks_indices, processChunks_indices, ?_⟩
  · intro tasks aiEnabled w
    by_cases h1 : tasks.isEmpty
    · have hc : tasks = [] := by
        cases tasks with
        | nil => rfl
        | cons a l => simp [List.isEmpty] at h1
      subst hc
      rfl
    · have h1' : tasks.isEmpty = false := by
        cases h : tasks.isEmpty
        · rfl
        · exact absurd h h1
      cases aiEnabled with
      | false => simp [categorizeTasksBatch, h1']
      | true =>
          simp only [categorizeTasksBatch, h1', Bool.not_true,
            Bool.false_eq_true, if_false]
          by_cases h2 : (separateCachedTasks (tick w).1 (tick w).2.svc.cache
              tasks).2.isEmpty
          · rw [if_pos h2]
            exact combineResults_length _ _ _
          · rw [if_neg h2]
            exact combineResults_length _ _ _
  · intro tasks w r h1 h2 hr
    have hflat : (createOptimalChunks (separateCachedTasks (tick w).1
        (tick w).2.svc.cache tasks).2 {}).flatten =
        (separateCachedTasks (tick w).1 (tick w).2.svc.cache tasks).2 :=
      (chunkLoop_flatten {} _ [] 0).trans (List.nil_append _)
    have hperm : (((separateCachedTasks (tick w).1 (tick w).2.svc.cache
        tasks).1 ++
        (processChunks true
          (separateCachedTasks (tick w).1 (tick w).2.svc.cache
            tasks).1.length
          tasks.length
          (createOptimalChunks
            (separateCachedTasks (tick w).1 (tick w).2.svc.cache tasks).2 {})
          []
          { (tick w).2 with svc := { (tick w).2.svc with
              health := { (tick w).2.svc.health with
                cacheHits := (tick w).2.svc.health.cacheHits +
                  (separateCachedTasks (tick w).1 (tick w).2.svc.cache
                    tasks).1.length } } }).1).map
        (fun x => x.index)).Perm (List.range tasks.length) := by
      rw [List.map_append, processChunks_indices, hflat, List.map_nil,
        List.nil_append]
      exact separateCachedTasks_indices _ _ tasks
    have hmain := combineResults_order _ _ tasks hperm r hr
    simp only [categorizeTasksBatch, h1, h2, Bool.not_true,
      Bool.false_eq_true, if_false]
    exact hmain

/-- Tasks for the C1 witness. -/
def c1Tasks : List Task :=
  [{ firstName := none, phone := none, notes := some "Need help with my order" }]

/-- Oracle world for the C1 witness: the single chunk is answered. -/
def c1World : World :=
  { baseWorld with batches := [.entries [(1, "Support")]] }

/-- Witness for C1 on a concrete run: one result for the one task, and the
tagged chunk result for position 0 lands at position 0 of the returned
array. -/
theorem categorizeTasksBatch_length_order_witness :
    (categorizeTasksBatch c1Tasks true c1World).1.results.length =
      c1Tasks.length ∧
    (categorizeTasksBatch c1Tasks true c1World).1.results.get? 0 =
      some { category := "Support", source := "ai", confidence := none } :=
  ⟨categorizeTasksBatch_length_order.1 c1Tasks true c1World,
   categorizeTasksBatch_length_order.2.2.2 c1Tasks c1World
     { index := 0,
       result := { category := "Support", source := "ai",
                   confidence := none } }
     (by decide) (by decide) (by decide)⟩

/-! ## C3: progress percentage monotonicity and terminal states -/

/-- The twenty-row CSV of the C3 counterexample. -/
def c3Csv : CsvFile :=
  { headers := ["FirstName", "Phone", "Notes"],
    rows := (List.range 20).map (fun i =>
      [("FirstName", "p"), ("Phone", "1"), ("Notes", "note" ++ Nat.repr i)]) }

/-- Oracle world of the C3 counterexample: the first chunk (15 items)
succeeds, the second chunk's batch call fails with an ordinary error, so
its five items fall back to per-item calls that all succeed. -/
def c3World : World :=
  { baseWorld with
    batches := [.entries [(1, "Support")], .otherFail],
    gens := [.text "Sales", .text "Sales", .text "Sales", .text "Sales",
             .text "Sales"] }

/-- C3 (counterexample to the claim as stated): in the run above the
progress record reaches 75% (15 of 20 tasks) and then drops back to 5%
while the status is still the non-terminal `categorizing`: the per-item
fallback reports chunk-relative processed counts (1..5) and
`updateProgress` recomputes the percentage from them over the full
20-task total. -/
theorem progress_monotone_counterexample :
    ((processUpload c3Csv true [10] (initializeProgress 20)
        c3World).trace.get? 6).map (fun p => (p.status, p.progress)) =
      some ("categorizing", 75) ∧
    ((processUpload c3Csv true [10] (initializeProgress 20)
        c3World).trace.get? 7).map (fun p => (p.status, p.progress)) =
      some ("categorizing", 5) := by
  decide

/-- `Math.round` on a non-negative quotient is monotone in the
numerator. -/
theorem jsRound_mono {a b : Nat} (den : Nat) (h : a ≤ b) :
    jsRound a den ≤ jsRound b den := by
  unfold jsRound
  split
  · exact Nat.le_refl 0
  · exact Nat.div_le_div_right (by omega)

/-- Every progress message of the per-item fallback is a chunk-relative
"Processing task individually" report with step `categorizing`. -/
theorem indivLoop_msgs (aiEnabled : Bool) (total : Nat) :
    ∀ (chunk : List TaggedTask) (done : Nat) (w : World),
      ∀ m ∈ (indivLoop aiEnabled total chunk done w).2.2,
        m.step = "categorizing" ∧
        m.currentStep = "Processing task individually" := by
  intro chunk
  induction chunk with
  | nil => intro done w m hm; cases hm
  | cons item rest ih =>
      intro done w0 m hm
      cases hrun : (categorizeTask (item.task.notes.getD "") true aiEnabled
          (tick w0).1 (tick w0).2).1 with
      | ok r =>
          simp only [indivLoop, hrun] at hm
          rcases List.mem_cons.mp hm with h | h
          · subst h; exact ⟨rfl, rfl⟩
          · exact ih (done + 1) _ m h
      | error e =>
          simp only [indivLoop, hrun] at hm
          exact ih (done + 1) _ m hm

/-- Every progress message issued by the chunk loop has step
`categorizing`. -/
theorem processChunks_msgs_steps (aiEnabled : Bool)
    (cachedCount totalTasks : Nat) :
    ∀ (chunks : List (List TaggedTask)) (acc : List TaggedResult) (w : World),
      ∀ m ∈ (processChunks aiEnabled cachedCount totalTasks chunks acc
          w).2.2.2, m.step = "categorizing" := by
  intro chunks
  induction chunks with
  | nil => intro acc w m hm; cases hm
  | cons chunk rest ih =>
      intro acc w0 m hm
      simp only [processChunks] at hm
      by_cases hck : (checkRateLimit (tick w0).1 (tick w0).2.svc.rate).1
      · rw [if_neg (by simp [hck])] at hm
        cases hres : (categorizeChunkBatch chunk (tick w0).1
            { (tick w0).2 with svc := { (tick w0).2.svc with
                rate := (checkRateLimit (tick w0).1
                  (tick w0).2.svc.rate).2 } }).1 with
        | ok chunkResults =>
            simp only [hres] at hm
            rcases List.mem_cons.mp hm with h | h
            · subst h; rfl
            · rcases List.mem_cons.mp h with h2 | h2
              · subst h2; rfl
              · exact ih _ _ m h2
        | error e =>
            cases e with
            | rateLike =>
                simp only [hres] at hm
                rcases List.mem_cons.mp hm with h | h
                · subst h; rfl
                · cases h
            | otherErr =>
                simp only [hres] at hm
                rcases List.mem_cons.mp hm with h | h
                · subst h; rfl
                · rcases List.mem_append.mp h with h2 | h2
                  · exact (indivLoop_msgs aiEnabled chunk.length chunk 0
                      _ m h2).1
                  · exact ih _ _ m h2
      · rw [if_pos (by simp [hck])] at hm
        rcases List.mem_cons.mp hm with h | h
        · subst h; rfl
        · cases h

/-- Every progress message issued by the batch entry point has step
`categorizing`. -/
theorem categorizeTasksBatch_msgs_steps (tasks : List Task) (aiEnabled : Bool)
    (w : World) :
    ∀ m ∈ (categorizeTasksBatch tasks aiEnabled w).2.2,
      m.step = "categorizing" := by
  intro m hm
  unfold categorizeTasksBatch at hm
  split at hm
  · cases hm
  · split at hm
    · cases hm
    · dsimp only at hm
      split at hm
      · rcases List.mem_cons.mp hm with h | h
        · subst h; rfl
        · cases h
      · rcases List.mem_cons.mp hm with h | h
        · subst h; rfl
        · exact processChunks_msgs_steps aiEnabled _ _ _ _ _ m h

/-- Every snapshot the progress-callback wrapper produces (beyond the ones
already in the fold state) carries the status of its message's step. -/
theorem wrapper_snaps_status (totalLen : Nat) :
    ∀ (msgs : List ProgressMsg) (st : Progress × List Progress × Nat × Nat),
      (∀ m ∈ msgs, m.step = "categorizing") →
      ∀ q ∈ (msgs.foldl (wrapperStep totalLen) st).2.1,
        q.status = "categorizing" ∨ q ∈ st.2.1 := by
  intro msgs
  induction msgs with
  | nil => intro st h q hq; exact Or.inr hq
  | cons m ms ih =>
      intro st h q hq
      rw [List.foldl_cons] at hq
      rcases ih (wrapperStep totalLen st m)
          (fun m' hm' => h m' (List.mem_cons_of_mem _ hm')) q hq with h1 | h1
      · exact Or.inl h1
      · rcases List.mem_cons.mp h1 with h2 | h2
        · left
          rw [h2]
          show (updateProgress st.1 _).status = _
          simp [updateProgress, h m (List.mem_cons_self m ms)]
        · exact Or.inr h2

/-- Chaining helper: a value below every element of an already-chained
list can be prepended. -/
theorem chain_le_cons_of_bound (a : Nat) (l : List Nat)
    (hb : ∀ x ∈ l, a ≤ x) (hc : List.Chain' (fun x y => x ≤ y) l) :
    List.Chain' (fun x y => x ≤ y) (a :: l) := by
  apply List.chain'_cons'.mpr
  refine ⟨?_, hc⟩
  intro y hy
  cases l with
  | nil => simp at hy
  | cons b t =>
      have hyb : b = y := by simpa using hy
      subst hyb
      exact hb b (List.mem_cons_self b t)

/-- Outside the per-item fallback, the processed counts reported by the
chunk loop only grow: they are bounded below by the count already
accumulated and form a non-decreasing sequence. -/
theorem processChunks_msgs_mono (aiEnabled : Bool)
    (cachedCount totalTasks : Nat) :
    ∀ (chunks : List (List TaggedTask)) (acc : List TaggedResult) (w : World),
      (∀ m ∈ (processChunks aiEnabled cachedCount totalTasks chunks acc
          w).2.2.2, m.currentStep ≠ "Processing task individually") →
      List.Chain' (fun a b => a ≤ b)
        (((processChunks aiEnabled cachedCount totalTasks chunks acc
          w).2.2.2).map (fun m => m.processedTasks.getD 0)) ∧
      ∀ m ∈ (processChunks aiEnabled cachedCount totalTasks chunks acc
          w).2.2.2, cachedCount + acc.length ≤ m.processedTasks.getD 0 := by
  intro chunks
  induction chunks with
  | nil =>
      intro acc w h
      exact ⟨List.chain'_nil, fun m hm => absurd hm (by intro hh; cases hh)⟩
  | cons chunk rest ih =>
      intro acc w0 h
      simp only [processChunks] at h ⊢
      by_cases hck : (checkRateLimit (tick w0).1 (tick w0).2.svc.rate).1
      · rw [if_neg (by simp [hck])] at h ⊢
        cases hres : (categorizeChunkBatch chunk (tick w0).1
            { (tick w0).2 with svc := { (tick w0).2.svc with
                rate := (checkRateLimit (tick w0).1
                  (tick w0).2.svc.rate).2 } }).1 with
        | ok chunkResults =>
            simp only [hres] at h ⊢
            have ihh := ih _ _ (fun m' hm' => h m'
              (List.mem_cons_of_mem _ (List.mem_cons_of_mem _ hm')))
            refine ⟨?_, ?_⟩
            · rw [List.map_cons, List.map_cons]
              apply chain_le_cons_of_bound
              · intro x hx
                rcases List.mem_cons.mp hx with h2 | h2
                · subst h2
                  show cachedCount + acc.length ≤
                    cachedCount + (acc ++ chunkResults).length
                  rw [List.length_append]
                  omega
                · rcases List.mem_map.mp h2 with ⟨m', hm', hme⟩
                  have := ihh.2 m' hm'
                  rw [← hme]
                  calc cachedCount + acc.length ≤
                      cachedCount + (acc ++ chunkResults).length := by
                        rw [List.length_append]; omega
                    _ ≤ m'.processedTasks.getD 0 := this
              · apply chain_le_cons_of_bound
                · intro x hx
                  rcases List.mem_map.mp hx with ⟨m', hm', hme⟩
                  have := ihh.2 m' hm'
                  rw [← hme]
                  exact this
                · exact ihh.1
            · intro m hm
              rcases List.mem_cons.mp hm with h2 | h2
              · subst h2; exact Nat.le_refl _
              · rcases List.mem_cons.mp h2 with h3 | h3
                · subst h3
                  show cachedCount + acc.length ≤
                    cachedCount + (acc ++ chunkResults).length
                  rw [List.length_append]
                  omega
                · calc cachedCount + acc.length ≤
                      cachedCount + (acc ++ chunkResults).length := by
                        rw [List.length_append]; omega
                    _ ≤ m.processedTasks.getD 0 := ihh.2 m h3
        | error e =>
            cases e with
            | rateLike =>
                simp only [hres] at h ⊢
                refine ⟨?_, ?_⟩
                · exact List.chain'_singleton _
                · intro m hm
                  rcases List.mem_cons.mp hm with h2 | h2
                  · subst h2; exact Nat.le_refl _
                  · cases h2
            | otherErr =>
                simp only [hres] at h ⊢
                have hind : (categorizeChunkIndividually aiEnabled chunk
                    (categorizeChunkBatch chunk (tick w0).1
                      { (tick w0).2 with svc := { (tick w0).2.svc with
                          rate := (checkRateLimit (tick w0).1
                            (tick w0).2.svc.rate).2 } }).2).2.2 = [] := by
                  cases hcase : (categorizeChunkIndividually aiEnabled chunk
                      (categorizeChunkBatch chunk (tick w0).1
                        { (tick w0).2 with svc := { (tick w0).2.svc with
                            rate := (checkRateLimit (tick w0).1
                              (tick w0).2.svc.rate).2 } }).2).2.2 with
                  | nil => rfl
                  | cons m0 ms0 =>
                      exfalso
                      have hm0 : m0 ∈ (categorizeChunkIndividually aiEnabled
                          chunk (categorizeChunkBatch chunk (tick w0).1
                            { (tick w0).2 with svc := { (tick w0).2.svc with
                                rate := (checkRateLimit (tick w0).1
                                  (tick w0).2.svc.rate).2 } }).2).2.2 := by
                        rw [hcase]
                        exact List.mem_cons_self m0 ms0
                      have hbad := (indivLoop_msgs aiEnabled chunk.length
                        chunk 0 _ m0 hm0).2
                      exact h m0 (List.mem_cons_of_mem _
                        (List.mem_append_left _ hm0)) hbad
                rw [hind, List.nil_append] at h ⊢
                have ihh := ih _ _ (fun m' hm' => h m'
                  (List.mem_cons_of_mem _ hm'))
                refine ⟨?_, ?_⟩
                · rw [List.map_cons]
                  apply chain_le_cons_of_bound
                  · intro x hx
                    rcases List.mem_map.mp hx with ⟨m', hm', hme⟩
                    have hb := ihh.2 m' hm'
                    rw [← hme]
                    calc cachedCount + acc.length ≤
                        cachedCount + (acc ++ (categorizeChunkIndividually
                          aiEnabled chunk _).1).length := by
                          rw [List.length_append]; omega
                      _ ≤ m'.processedTasks.getD 0 := hb
                  · exact ihh.1
                · intro m hm
                  rcases List.mem_cons.mp hm with h2 | h2
                  · subst h2; exact Nat.le_refl _
                  · calc cachedCount + acc.length ≤
                        cachedCount + (acc ++ (categorizeChunkIndividually
                          aiEnabled chunk _).1).length := by
                          rw [List.length_append]; omega
                      _ ≤ m.processedTasks.getD 0 := ihh.2 m h2
      · rw [if_pos (by simp [hck])] at h ⊢
        refine ⟨?_, ?_⟩
        · exact List.chain'_singleton _
        · intro m hm
          rcases List.mem_cons.mp hm with h2 | h2
          · subst h2; exact Nat.le_refl _
          · cases h2

/-- Membership in the trace of a successful pipeline run, with the final
record stripped off. -/
theorem mem_dropLast_structure {α : Type} (a b c x y : α) (l : List α)
    (pk : α) (h : pk ∈ ([a, b, c] ++ l ++ [x, y]).dropLast) :
    pk = a ∨ pk = b ∨ pk = c ∨ pk ∈ l ∨ pk = x := by
  have hsplit : ([a, b, c] ++ l ++ [x, y]) =
      (([a, b, c] ++ l ++ [x]) ++ [y]) := by simp
  rw [hsplit, List.dropLast_concat] at h
  simp only [List.mem_append, List.mem_cons, List.mem_singleton,
    List.not_mem_nil, or_false] at h
  tauto

/-- C3 (amended): (a) `updateProgress` recomputes the percentage as
`min 100 (round(processed*100/total))` from any update carrying a
processed count, so two successive such updates with non-decreasing counts
(and no totals change) produce a non-decreasing percentage — the original
monotonicity claim therefore holds exactly for update sequences whose
processed counts do not decrease; (b) outside the per-item fallback the
chunk loop's reported counts are such a sequence (bounded below by the
accumulated count and chained non-decreasing), while the fallback's
chunk-relative counts break it (see the counterexample); (c) a terminal
status (`completed`/`failed`) only ever appears as the last record state
of a pipeline run — no update follows a terminal state. -/
theorem progress_tracker_amended :
    (∀ (p : Progress) (u u' : ProgUpdates) (n n' : Nat),
      u.processedTasks = some n → u'.processedTasks = some n' →
      u.totalTasks = none → n ≤ n' →
      (updateProgress p u).progress =
        min 100 (jsRound (n * 100) p.totalTasks) ∧
      (updateProgress (updateProgress p u) u').progress =
        min 100 (jsRound (n' * 100) p.totalTasks) ∧
      (updateProgress p u).progress ≤
        (updateProgress (updateProgress p u) u').progress) ∧
    (∀ (aiEnabled : Bool) (cachedCount totalTasks : Nat)
       (chunks : List (List TaggedTask)) (acc : List TaggedResult)
       (w : World),
      (∀ m ∈ (processChunks aiEnabled cachedCount totalTasks chunks acc
          w).2.2.2, m.currentStep ≠ "Processing task individually") →
      List.Chain' (fun a b => a ≤ b)
        (((processChunks aiEnabled cachedCount totalTasks chunks acc
          w).2.2.2).map (fun m => m.processedTasks.getD 0)) ∧
      ∀ m ∈ (processChunks aiEnabled cachedCount totalTasks chunks acc
          w).2.2.2, cachedCount + acc.length ≤ m.processedTasks.getD 0) ∧
    (∀ (filePresent : Bool) (agents : List Nat) (csv : CsvFile)
       (fileSize : Nat) (aiEnabled : Bool) (w : World) (est : Nat)
       (r : PipelineResult),
      uploadCSV filePresent agents csv fileSize aiEnabled w =
        .started est r →
      ∀ pk ∈ r.trace.dropLast,
        pk.status ≠ "completed" ∧ pk.status ≠ "failed") := by
  refine ⟨?_, processChunks_msgs_mono, ?_⟩
  · intro p u u' n n' hn hn' ht hle
    have htt : (updateProgress p u).totalTasks = p.totalTasks := by
      simp [updateProgress, ht]
    have h1 : (updateProgress p u).progress =
        min 100 (jsRound (n * 100) p.totalTasks) := by
      simp [updateProgress, hn]
    have h2 : (updateProgress (updateProgress p u) u').progress =
        min 100 (jsRound (n' * 100) p.totalTasks) := by
      conv_lhs => rw [updateProgress]
      rw [hn']
      rw [htt]
    refine ⟨h1, h2, ?_⟩
    rw [h1, h2]
    exact min_le_min (Nat.le_refl 100)
      (jsRound_mono _ (Nat.mul_le_mul_right 100 hle))
  · intro filePresent agents csv fileSize aiEnabled w est r hrun pk hpk
    unfold uploadCSV at hrun
    split at hrun
    · cases hrun
    · split at hrun
      · cases hrun
      · dsimp only at hrun
        injection hrun with h1 h2
        subst h2
        by_cases hh : headersValid csv
        · simp only [processUpload, hh, Bool.not_true, Bool.false_eq_true,
            if_false] at hpk
          rcases mem_dropLast_structure _ _ _ _ _ _ pk hpk with
            h | h | h | h | h
          · subst h
            exact ⟨by simp [initializeProgress], by simp [initializeProgress]⟩
          · subst h
            exact ⟨by simp [updateProgress, initializeProgress],
              by simp [updateProgress, initializeProgress]⟩
          · subst h
            exact ⟨by simp [updateProgress, initializeProgress],
              by simp [updateProgress, initializeProgress]⟩
          · rw [List.mem_reverse] at h
            rcases wrapper_snaps_status _ _ _
              (categorizeTasksBatch_msgs_steps _ _ _) pk h with h2 | h2
            · rw [h2]
              exact ⟨by simp, by simp⟩
            · cases h2
          · subst h
            exact ⟨by simp [updateProgress], by simp [updateProgress]⟩
        · have hh' : headersValid csv = false := by
            cases hcase : headersValid csv
            · rfl
            · exact absurd hcase hh
          simp only [processUpload, hh', Bool.not_false] at hpk
          rw [if_pos trivial] at hpk
          simp only [List.dropLast] at hpk
          rcases List.mem_cons.mp hpk with h | h
          · subst h
            exact ⟨by simp [initializeProgress], by simp [initializeProgress]⟩
          · rcases List.mem_cons.mp h with h2 | h2
            · subst h2
              exact ⟨by simp [updateProgress, initializeProgress],
                by simp [updateProgress, initializeProgress]⟩
            · cases h2

/-- Witness for the amended C3: two concrete updates with growing counts
produce 25% then 75%; the rate-stopped two-chunk run reports a chained
non-decreasing count sequence; and the first record state of a concrete
successful run is non-terminal (it is in the trace with the last state
stripped). -/
theorem progress_tracker_amended_witness :
    ((updateProgress (initializeProgress 20)
        { processedTasks := some 5 }).progress =
      min 100 (jsRound (5 * 100) (initializeProgress 20).totalTasks) ∧
     (updateProgress (updateProgress (initializeProgress 20)
        { processedTasks := some 5 })
        { processedTasks := some 15 }).progress =
      min 100 (jsRound (15 * 100) (initializeProgress 20).totalTasks) ∧
     (updateProgress (initializeProgress 20)
        { processedTasks := some 5 }).progress ≤
      (updateProgress (updateProgress (initializeProgress 20)
        { processedTasks := some 5 })
        { processedTasks := some 15 }).progress) ∧
    List.Chain' (fun a b => a ≤ b)
      (((processChunks true 0 2 [c2Chunk0, c2Chunk1] []
        c2RateWorld).2.2.2).map (fun m => m.processedTasks.getD 0)) ∧
    ((initializeProgress 7).status ≠ "completed" ∧
     (initializeProgress 7).status ≠ "failed") :=
  ⟨progress_tracker_amended.1 (initializeProgress 20)
      { processedTasks := some 5 } { processedTasks := some 15 } 5 15
      rfl rfl rfl (by decide),
   (progress_tracker_amended.2.1 true 0 2 [c2Chunk0, c2Chunk1] []
      c2RateWorld (by decide)).1,
   progress_tracker_amended.2.2 true [101, 102, 103] c7Csv 700 false
      baseWorld 7
      (processUpload c7Csv false [101, 102, 103] (initializeProgress 7)
        baseWorld)
      (by decide) (initializeProgress 7) (by decide)⟩

end TaskFlow
